import Mathlib

/-!
# PureMVC network layer: request execution, retry and token refresh

A shallow embedding of `NetworkManager` (NetworkManager.h / NetworkManager.cpp),
`HttpError` (http_errors.h), `parseErrorMessage` (string_helper.h) and
`UserTokenProvider` (user_token_provider.h).

Conventions of the embedding

* C++ `int` values (status codes, retry counters, limits) are `Int`.  The only
  arithmetic the code performs on them is `retryCount++`, and that statement is
  reached only after `shouldRetry` established `retryCount < maxRetries`, so the
  increment cannot leave the range of `int`.
* `httplib::Headers` (a multimap of strings) is the list of its entries;
  `insert` / `emplace` add an entry and never replace one, `erase` removes the
  entries it is pointed at.  The multimap keeps its entries ordered by key,
  the list keeps them in the order of insertion: a list of headers stands for
  the entries and how often each occurs, not for their order.
* `httplib::Result` is `Option HttpResponse`: `none` is the null result.
* The pieces of httplib and nlohmann::json that the repository only calls
  (the blocking HTTP exchange, `json::parse`, `params_to_query_str`) are fields
  of `Env`.
* Each step of a request chain runs on its own detached thread, one after the
  other; the chain is embedded as a sequential function that records what it
  does (transport exchanges, sleeps, refreshes, callback invocations) in a
  trace.
-/

namespace PureMVC

/-! ## Data model -/

/-- Entries of an `httplib::Headers` multimap. -/
abbrev Headers := List (String × String)

/-- Entries of an `httplib::Params` multimap. -/
abbrev Params := List (String × String)

/-- One `httplib::MultipartFormData` item. -/
structure MultipartFormData where
  name : String
  content : String
  filename : String
  content_type : String
deriving DecidableEq, Repr

/-- Values of `nlohmann::json`.  Numbers are kept as integers; no function of
the repository inspects a number. -/
inductive Json where
  | null : Json
  | bool (b : Bool) : Json
  | number (n : Int) : Json
  | str (s : String) : Json
  | arr (xs : List Json) : Json
  | obj (kvs : List (String × Json)) : Json

/-- Embeds `json::contains(key)`: true exactly for an object that has the key. -/
def Json.contains : Json → String → Bool
  | .obj kvs, key => kvs.any (fun kv => kv.1 == key)
  | _, _ => false

/-- Embeds `json::operator[](key)` on an object that has the key. -/
def Json.getKey : Json → String → Option Json
  | .obj kvs, key => kvs.lookup key
  | _, _ => none

/-- Embeds `json::is_object()`. -/
def Json.is_object : Json → Bool
  | .obj _ => true
  | _ => false

/-- The response part of an `httplib::Result`. -/
structure HttpResponse where
  status : Int
  body : String
  headers : Headers
deriving DecidableEq, Repr

/-- Embeds `struct NetworkResponse`. -/
structure NetworkResponse where
  statusCode : Int
  body : String
  headers : Headers
  success : Bool
  errorMessage : String
deriving DecidableEq, Repr

/-- Embeds `NetworkResponse()`: `statusCode(0), success(false)`, empty strings. -/
def NetworkResponse.default : NetworkResponse :=
  { statusCode := 0, body := "", headers := [], success := false, errorMessage := "" }

/-- Embeds `struct RequestConfig`. -/
structure RequestConfig where
  baseUrl : String
  port : Int
  useSSL : Bool
  connectionTimeout : Int
  readTimeout : Int
  verifySSL : Bool
  defaultHeaders : Headers
  maxRetries : Int
  retryDelayMs : Int
  retryOnStatusCodes : List Int

/-- Embeds `RequestConfig()`. -/
def RequestConfig.default : RequestConfig :=
  { baseUrl := "", port := 443, useSSL := true, connectionTimeout := 30, readTimeout := 30,
    verifySSL := true, defaultHeaders := [], maxRetries := 3, retryDelayMs := 1000,
    retryOnStatusCodes := [401, 403, 503] }

/-- Embeds `struct RequestContext`, without the callback: invoking it is an event of
the trace. -/
structure RequestContext where
  path : String
  method : String
  headers : Headers
  params : Params
  body : String
  contentType : String
  multipartItems : List MultipartFormData
  retryCount : Int

/-- Embeds `RequestContext()`: `retryCount(0)`, everything else empty. -/
def RequestContext.default : RequestContext :=
  { path := "", method := "", headers := [], params := [], body := "", contentType := "",
    multipartItems := [], retryCount := 0 }

/-- What a request hands to the HTTP client. -/
inductive Payload where
  | none : Payload
  | raw (body contentType : String) : Payload
  | multipart (items : List MultipartFormData) : Payload
deriving DecidableEq, Repr

/-- One call of a client method (`Get`, `Post`, `Put`, `Delete`, `Patch`);
`secure` tells whether it went to `sslClient_` or to `httpClient_`. -/
structure Dispatch where
  secure : Bool
  method : String
  path : String
  headers : Headers
  payload : Payload
deriving DecidableEq, Repr

/-- The library code the repository calls but does not contain. -/
structure Env where
  /-- The blocking exchange of the httplib client: the result of the exchange
  with the given number (counted from 0) for the given call. -/
  transport : Nat → Dispatch → Option HttpResponse
  /-- `json::parse`: `none` when it throws. -/
  json_parse : String → Option Json
  /-- `httplib::detail::params_to_query_str`. -/
  params_to_query_str : Params → String

/-- The `TokenProvider` interface over a provider object with state `π`.  A
call of `refreshAccessToken` yields the pair its callback receives and the
provider's next state, so the callback is invoked once per refresh. -/
structure TokenProvider (π : Type) where
  getAccessToken : π → String
  getRefreshToken : π → String
  refreshAccessToken : π → (Bool × String) × π

/-- The data members of `class NetworkManager`.  The two client pointers are
kept as "is non-null". -/
structure NetworkManager (π : Type) where
  config_ : RequestConfig
  sslClient_ : Bool
  httpClient_ : Bool
  accessToken_ : String
  refreshToken_ : String
  tokenProvider_ : Option (TokenProvider π)
  autoRefreshToken_ : Bool
  requestInterceptor_ : Option (Headers → Headers)

/-! ## http_errors.h -/

/-- Embeds `std::to_string(int)`. -/
def to_string (n : Int) : String := toString n

/-- Embeds `HttpError::statusMessages`. -/
def HttpError.statusMessages : List (Int × String) :=
  [(400, "Bad request"), (401, "Invalid credentials"), (403, "Access forbidden"),
   (404, "Login endpoint not found"), (429, "Too many login attempts"), (500, "Server error")]

/-- Embeds `HttpError::getMessage`. -/
def HttpError.getMessage (statusCode : Int) : String :=
  match HttpError.statusMessages.lookup statusCode with
  | some msg => msg
  | none => "Error " ++ to_string statusCode

/-! ## string_helper.h -/

/-- Both loops of `parseErrorMessage`: the first of the given fields that the
value contains, holds a string and is not empty. -/
def scanErrorFields (j : Json) : List String → Option String
  | [] => none
  | field :: rest =>
    if j.contains field then
      match j.getKey field with
      | some (.str msg) => if msg ≠ "" then some msg else scanErrorFields j rest
      | _ => scanErrorFields j rest
    else scanErrorFields j rest

/-- Embeds `parseErrorMessage`. -/
def parseErrorMessage (response : Json) (defaultMsg : String) : String :=
  match scanErrorFields response ["error", "message", "detail", "error_description", "msg"] with
  | some msg => msg
  | none =>
    match (if response.contains "error" then response.getKey "error" else none) with
    | some (.obj kvs) =>
      match scanErrorFields (.obj kvs) ["message", "detail", "description"] with
      | some msg => msg
      | none => defaultMsg
    | _ => defaultMsg

/-! ## NetworkManager.cpp -/

/-- Embeds `NetworkManager::NetworkManager` with `initializeClient`: exactly the
client selected by `useSSL` is created. -/
def NetworkManager.new {π : Type} (config : RequestConfig) : NetworkManager π :=
  { config_ := config, sslClient_ := config.useSSL, httpClient_ := !config.useSSL,
    accessToken_ := "", refreshToken_ := "", tokenProvider_ := none,
    autoRefreshToken_ := true, requestInterceptor_ := none }

/-- Embeds `NetworkManager::shouldRetry`. -/
def NetworkManager.shouldRetry {π : Type} (m : NetworkManager π) (statusCode retryCount : Int) :
    Bool :=
  if retryCount ≥ m.config_.maxRetries then false
  else m.config_.retryOnStatusCodes.contains statusCode

/-- Embeds `NetworkManager::processResponse`. -/
def processResponse (env : Env) (res : Option HttpResponse) : NetworkResponse :=
  match res with
  | none =>
    { NetworkResponse.default with
      success := false, statusCode := 0,
      errorMessage := "Network error: Could not connect to server" }
  | some r =>
    let success := decide (r.status ≥ 200 ∧ r.status < 300)
    let response : NetworkResponse :=
      { statusCode := r.status, body := r.body, headers := r.headers, success := success,
        errorMessage := "" }
    if !success then
      let tableMsg := HttpError.getMessage r.status
      if r.body ≠ "" then
        match env.json_parse r.body with
        | some errorJson =>
          { response with errorMessage := parseErrorMessage errorJson tableMsg }
        | none => { response with errorMessage := tableMsg }
      else { response with errorMessage := tableMsg }
    else response

/-- What a request chain does, in order. -/
inductive Event where
  /-- One blocking call of a client method. -/
  | exchange (d : Dispatch) : Event
  /-- The delay `std::this_thread::sleep_for(retryDelayMs)` before a plain retry. -/
  | sleep (ms : Int) : Event
  /-- One call of `tokenProvider_->refreshAccessToken`, with what its callback received. -/
  | refresh (success : Bool) (newToken : String) : Event
  /-- One invocation of `context.callback`. -/
  | callback (r : NetworkResponse) : Event
deriving DecidableEq, Repr

/-- Number of client calls in a trace. -/
def exchanges (tr : List Event) : Nat :=
  tr.countP (fun e => match e with | .exchange _ => true | _ => false)

/-- Number of refresh calls in a trace. -/
def refreshes (tr : List Event) : Nat :=
  tr.countP (fun e => match e with | .refresh _ _ => true | _ => false)

/-- Number of callback invocations in a trace. -/
def callbacks (tr : List Event) : Nat :=
  tr.countP (fun e => match e with | .callback _ => true | _ => false)

/-- The manager, the provider object its `tokenProvider_` points to, and the
trace of what has happened so far. -/
structure World (π : Type) where
  manager : NetworkManager π
  provider : π
  trace : List Event

/-- Appends an event to the trace. -/
def World.emit {π : Type} (w : World π) (e : Event) : World π :=
  { w with trace := w.trace ++ [e] }

/-- Embeds `NetworkManager::setAccessToken`. -/
def NetworkManager.setAccessToken {π : Type} (m : NetworkManager π) (token : String) :
    NetworkManager π :=
  { m with accessToken_ := token }

/-- Embeds `NetworkManager::injectAuthToken`. -/
def injectAuthToken {π : Type} (m : NetworkManager π) (p : π) (headers : Headers) : Headers :=
  let token :=
    match m.tokenProvider_ with
    | some P => P.getAccessToken p
    | none => m.accessToken_
  if token ≠ "" then
    headers.filter (fun h => h.1 ≠ "Authorization") ++ [("Authorization", "Bearer " ++ token)]
  else headers

/-- Embeds `NetworkManager::mergeHeaders`: the default headers, then one `insert`
per request header. -/
def mergeHeaders {π : Type} (m : NetworkManager π) (requestHeaders : Headers) : Headers :=
  requestHeaders.foldl (fun merged header => merged ++ [header]) m.config_.defaultHeaders

/-- The block that ends `doGet`, `doPost`, `doPostMultipart`, `doPut`, `doDelete`
and `doPatch`: the result starts as the null result and is replaced by the
answer of the client that matches `useSSL`, if that client exists. -/
def clientCall {π : Type} (env : Env) (w : World π) (d : Dispatch) :
    Option HttpResponse × World π :=
  if w.manager.config_.useSSL && w.manager.sslClient_ then
    let d1 := { d with secure := true }
    (env.transport (exchanges w.trace) d1, w.emit (.exchange d1))
  else if !w.manager.config_.useSSL && w.manager.httpClient_ then
    let d1 := { d with secure := false }
    (env.transport (exchanges w.trace) d1, w.emit (.exchange d1))
  else (none, w)

/-- The response every `do...` function returns when neither client exists. -/
def clientNotInitialized : NetworkResponse :=
  { NetworkResponse.default with success := false, errorMessage := "Client not initialized" }

/-- Embeds `NetworkManager::doGet`. -/
def doGet {π : Type} (env : Env) (w : World π) (path : String) (headers : Headers)
    (params : Params) : NetworkResponse × World π :=
  if !w.manager.sslClient_ && !w.manager.httpClient_ then (clientNotInitialized, w)
  else
    let mergedHeaders := mergeHeaders w.manager headers
    let fullPath := if params ≠ [] then path ++ ("?" ++ env.params_to_query_str params) else path
    let out := clientCall env w
      { secure := false, method := "GET", path := fullPath, headers := mergedHeaders,
        payload := .none }
    (processResponse env out.1, out.2)

/-- Embeds `NetworkManager::doPost`. -/
def doPost {π : Type} (env : Env) (w : World π) (path body contentType : String)
    (headers : Headers) : NetworkResponse × World π :=
  if !w.manager.sslClient_ && !w.manager.httpClient_ then (clientNotInitialized, w)
  else
    let mergedHeaders := mergeHeaders w.manager headers
    let out := clientCall env w
      { secure := false, method := "POST", path := path, headers := mergedHeaders,
        payload := .raw body contentType }
    (processResponse env out.1, out.2)

/-- Embeds `NetworkManager::doPostMultipart`. -/
def doPostMultipart {π : Type} (env : Env) (w : World π) (path : String)
    (items : List MultipartFormData) (headers : Headers) : NetworkResponse × World π :=
  if !w.manager.sslClient_ && !w.manager.httpClient_ then (clientNotInitialized, w)
  else
    let mergedHeaders := mergeHeaders w.manager headers
    let out := clientCall env w
      { secure := false, method := "POST", path := path, headers := mergedHeaders,
        payload := .multipart items }
    (processResponse env out.1, out.2)

/-- Embeds `NetworkManager::doPut`. -/
def doPut {π : Type} (env : Env) (w : World π) (path body contentType : String)
    (headers : Headers) : NetworkResponse × World π :=
  if !w.manager.sslClient_ && !w.manager.httpClient_ then (clientNotInitialized, w)
  else
    let mergedHeaders := mergeHeaders w.manager headers
    let out := clientCall env w
      { secure := false, method := "PUT", path := path, headers := mergedHeaders,
        payload := .raw body contentType }
    (processResponse env out.1, out.2)

/-- Embeds `NetworkManager::doDelete`. -/
def doDelete {π : Type} (env : Env) (w : World π) (path : String) (headers : Headers) :
    NetworkResponse × World π :=
  if !w.manager.sslClient_ && !w.manager.httpClient_ then (clientNotInitialized, w)
  else
    let mergedHeaders := mergeHeaders w.manager headers
    let out := clientCall env w
      { secure := false, method := "DELETE", path := path, headers := mergedHeaders,
        payload := .none }
    (processResponse env out.1, out.2)

/-- Embeds `NetworkManager::doPatch`. -/
def doPatch {π : Type} (env : Env) (w : World π) (path body contentType : String)
    (headers : Headers) : NetworkResponse × World π :=
  if !w.manager.sslClient_ && !w.manager.httpClient_ then (clientNotInitialized, w)
  else
    let mergedHeaders := mergeHeaders w.manager headers
    let out := clientCall env w
      { secure := false, method := "PATCH", path := path, headers := mergedHeaders,
        payload := .raw body contentType }
    (processResponse env out.1, out.2)

/-- The response `executeRequest` builds for a method it does not know. -/
def unknownMethod : NetworkResponse :=
  { statusCode := 0, body := "", headers := [], success := false,
    errorMessage := "Unknown method" }

/-- Embeds `NetworkManager::executeRequest`. -/
def executeRequest {π : Type} (env : Env) (w : World π) (context : RequestContext) :
    NetworkResponse × World π :=
  let injected := injectAuthToken w.manager w.provider context.headers
  let headers :=
    match w.manager.requestInterceptor_ with
    | some interceptor => interceptor injected
    | none => injected
  if context.method = "GET" then doGet env w context.path headers context.params
  else if context.method = "POST" then
    if context.multipartItems ≠ [] then
      doPostMultipart env w context.path context.multipartItems headers
    else doPost env w context.path context.body context.contentType headers
  else if context.method = "PUT" then
    doPut env w context.path context.body context.contentType headers
  else if context.method = "DELETE" then doDelete env w context.path headers
  else if context.method = "PATCH" then
    doPatch env w context.path context.body context.contentType headers
  else (unknownMethod, w)

/-- The synthetic response of a failed refresh. -/
def refreshFailed (errorMessage : String) : NetworkResponse :=
  { statusCode := 403, body := "", headers := [], success := false,
    errorMessage := errorMessage }

/-- Embeds `NetworkManager::handleTokenRefresh`; `retry` is the call
`executeWithRetry(context)` inside the refresh callback. -/
def handleTokenRefresh {π : Type} (retry : World π → RequestContext → Option (World π))
    (w : World π) (context : RequestContext) : Option (World π) :=
  match w.manager.tokenProvider_ with
  | none => some (w.emit (.callback (refreshFailed "Token refresh failed: No token provider")))
  | some P =>
    let out := P.refreshAccessToken w.provider
    let w1 : World π :=
      { w with provider := out.2, trace := w.trace ++ [.refresh out.1.1 out.1.2] }
    if out.1.1 = true ∧ out.1.2 ≠ "" then
      let w2 : World π := { w1 with manager := w1.manager.setAccessToken out.1.2 }
      retry w2 { context with retryCount := context.retryCount + 1 }
    else some (w1.emit (.callback (refreshFailed "Token refresh failed")))

/-- Embeds `NetworkManager::executeWithRetry`.  Every call hands its body to
`executeAsync`, which starts one thread; the first argument bounds the
number of threads the chain may start, and `none` means the bound was
reached before the callback was invoked. -/
def executeWithRetry {π : Type} (env : Env) : Nat → World π → RequestContext → Option (World π)
  | 0, _, _ => none
  | fuel + 1, w, context =>
    let out := executeRequest env w context
    let response := out.1
    let w1 := out.2
    if response.success = false ∧
        w1.manager.shouldRetry response.statusCode context.retryCount = true then
      if w1.manager.autoRefreshToken_ = true ∧ w1.manager.tokenProvider_.isSome = true ∧
          (response.statusCode = 401 ∨ response.statusCode = 403) then
        handleTokenRefresh (executeWithRetry env fuel) w1 context
      else
        executeWithRetry env fuel (w1.emit (.sleep w1.manager.config_.retryDelayMs))
          { context with retryCount := context.retryCount + 1 }
    else some (w1.emit (.callback response))

/-! ## user_token_provider.h -/

/-- Embeds `json::value(key, "")`: the string stored under the key, the default when
an object lacks the key, and `none` where the library throws (the value is
not an object, or the entry is not a string). -/
def Json.value : Json → String → String → Option String
  | .obj kvs, key, dflt =>
    match kvs.lookup key with
    | none => some dflt
    | some (.str s) => some s
    | some _ => none
  | _, _, _ => none

/-- The data members of `class UserTokenProvider`, together with two fields for
its refresh: `refreshReplies k` is the response the callback of the POST to
"/api/v1/auth/refresh" is invoked with at the refresh with number `k`, if it
is invoked, and `posts` counts the POSTs that were started. -/
structure UserTokenProvider where
  accessToken_ : String
  refreshToken_ : String
  refreshReplies : Nat → NetworkResponse
  posts : Nat

/-- Embeds `UserTokenProvider::refreshAccessToken`: the pair handed to the callback
and the provider afterwards.  With an empty refresh token the source calls
back `(false, "")` at once.  Otherwise it posts through the stack-local
`tempNetwork`, whose destructor runs when `refreshAccessToken` returns while
the detached thread started by `post` still uses it, so the source does not
determine whether the callback passed to `post` ever runs.  That branch of the
embedding is the callback applied to `refreshReplies`: what the callback does
if it runs with that response.  The theorems of this file use the empty-token
branch only. -/
def UserTokenProvider.refreshAccessToken (env : Env) (p : UserTokenProvider) :
    (Bool × String) × UserTokenProvider :=
  if p.refreshToken_ = "" then ((false, ""), p)
  else
    let response := p.refreshReplies p.posts
    let p1 := { p with posts := p.posts + 1 }
    if response.success = true then
      match env.json_parse response.body with
      | some jsonResponse =>
        match jsonResponse.value "access_token" "", jsonResponse.value "refresh_token" "" with
        | some newAccessToken, some newRefreshToken =>
          if newAccessToken ≠ "" then
            ((true, newAccessToken),
              { p1 with
                accessToken_ := newAccessToken,
                refreshToken_ :=
                  if newRefreshToken ≠ "" then newRefreshToken else p1.refreshToken_ })
          else ((false, ""), p1)
        | _, _ => ((false, ""), p1)
      | none => ((false, ""), p1)
    else ((false, ""), p1)

/-- The `TokenProvider` interface as `UserTokenProvider` implements it. -/
def UserTokenProvider.asTokenProvider (env : Env) : TokenProvider UserTokenProvider :=
  { getAccessToken := fun p => p.accessToken_,
    getRefreshToken := fun p => p.refreshToken_,
    refreshAccessToken := UserTokenProvider.refreshAccessToken env }

/-- The state the constructor leaves the client pointers in, which no member
function changes afterwards: exactly the client selected by `useSSL` exists. -/
def Initialized {π : Type} (m : NetworkManager π) : Prop :=
  m.sslClient_ = m.config_.useSSL ∧ m.httpClient_ = !m.config_.useSSL

/-- The methods `executeRequest` knows; the public entry points (`get`, `post`,
`postForm`, `postMultipart`, `postRaw`, `put`, `putRaw`, `del`, `patch`) set no
other. -/
def KnownMethod (method : String) : Prop :=
  method = "GET" ∨ method = "POST" ∨ method = "PUT" ∨ method = "DELETE" ∨ method = "PATCH"

/-! ## Sample values -/

/-- A transport that answers every call with the given status and an empty body. -/
def constantEnv (status : Int) : Env :=
  { transport := fun _ _ => some { status := status, body := "", headers := [] },
    json_parse := fun _ => none,
    params_to_query_str := fun _ => "" }

/-- A provider whose refresh always reports success with the token "fresh". -/
def alwaysFresh : TokenProvider Unit :=
  { getAccessToken := fun _ => "fresh",
    getRefreshToken := fun _ => "r",
    refreshAccessToken := fun _ => ((true, "fresh"), ()) }

/-- A manager built by the constructor from the default configuration with
the given retry limit, with `alwaysFresh` set as its token provider. -/
def freshManager (maxRetries : Int) : NetworkManager Unit :=
  { (NetworkManager.new { RequestConfig.default with maxRetries := maxRetries } :
      NetworkManager Unit) with
    tokenProvider_ := some alwaysFresh }

/-- A manager built by the constructor from the default configuration with
the given retry limit and no token provider. -/
def plainManager (maxRetries : Int) : NetworkManager Unit :=
  NetworkManager.new { RequestConfig.default with maxRetries := maxRetries }

/-- A transport that answers the first call with 401 and every later call
with 200; every body parses to an object holding the access token "fresh". -/
def expiredOnceEnv : Env :=
  { transport := fun n _ =>
      some { status := if n = 0 then 401 else 200, body := "", headers := [] },
    json_parse := fun _ => some (.obj [("access_token", .str "fresh")]),
    params_to_query_str := fun _ => "" }

/-- A `UserTokenProvider` after a login, whose refresh endpoint answers 200. -/
def loggedInProvider : UserTokenProvider :=
  { accessToken_ := "stale", refreshToken_ := "r1",
    refreshReplies := fun _ =>
      { statusCode := 200, body := "{}", headers := [], success := true, errorMessage := "" },
    posts := 0 }

/-- A `UserTokenProvider` that holds no refresh token. -/
def loggedOutProvider : UserTokenProvider :=
  { loggedInProvider with accessToken_ := "", refreshToken_ := "" }

/-- A manager built by the constructor from the default configuration, with a
`UserTokenProvider` set as its token provider, as `UserProxy` does. -/
def userManager (env : Env) : NetworkManager UserTokenProvider :=
  { (NetworkManager.new RequestConfig.default : NetworkManager UserTokenProvider) with
    tokenProvider_ := some (UserTokenProvider.asTokenProvider env) }

/-- The context `get("/items", callback)` builds. -/
def getItems : RequestContext :=
  { RequestContext.default with path := "/items", method := "GET" }

/-- A context with a method no entry point sets. -/
def traceItems : RequestContext :=
  { RequestContext.default with path := "/items", method := "TRACE" }

/-! ## The spec's description of error-message extraction -/

/-- The string a field holds, when the value has the field, the field holds a
string and the string is not empty. -/
def nonEmptyStringAt (j : Json) (field : String) : Option String :=
  match j.getKey field with
  | some (.str s) => if s ≠ "" then some s else none
  | _ => none

/-- The spec's "first non-empty string wins": the value of the first of the
given fields, in the given order, that holds a non-empty string. -/
def firstNonEmptyString (j : Json) (fields : List String) : Option String :=
  (fields.filterMap (nonEmptyStringAt j)).head?

/-- The spec's priority order of the top-level error fields. -/
def topLevelErrorFields : List String :=
  ["error", "message", "detail", "error_description", "msg"]

/-- The spec's order of the sub-fields searched in a nested `error` object. -/
def nestedErrorFields : List String := ["message", "detail", "description"]

/-- The spec's "recognizable error field": the first non-empty top-level
string, and if there is none and the field `error` is an object, the first
non-empty string among that object's sub-fields. -/
def recognizedError (j : Json) : Option String :=
  match firstNonEmptyString j topLevelErrorFields with
  | some msg => some msg
  | none =>
    match j.getKey "error" with
    | some (.obj sub) => firstNonEmptyString (.obj sub) nestedErrorFields
    | _ => none


/-- A transport that answers every call with the given status and the same
body, together with a parser that reads every body as the given value
(`none`: the body does not parse). -/
def parsedEnv (status : Int) (parsed : Option Json) : Env :=
  { transport := fun _ _ => some { status := status, body := "body", headers := [] },
    json_parse := fun _ => parsed,
    params_to_query_str := fun _ => "" }

/-- The value of the body `{"error":{"message":"Bad password"}}`. -/
def badPasswordJson : Json :=
  .obj [("error", .obj [("message", .str "Bad password")])]

/-- The value of a body in which `error` is an object, `message` is empty and
`detail` holds a text. -/
def quotaJson : Json :=
  .obj [("error", .obj [("message", .str "nested")]), ("message", .str ""),
        ("detail", .str "Quota exceeded"), ("msg", .str "later")]


/-! ## Vocabulary for the header claims -/

/-- The token `injectAuthToken` works with: the provider's access token when a
provider is set, the manager's own `accessToken_` otherwise. -/
def currentToken {π : Type} (m : NetworkManager π) (p : π) : String :=
  match m.tokenProvider_ with
  | some P => P.getAccessToken p
  | none => m.accessToken_

/-- The entries of a header set whose key is spelled `Authorization`. -/
def authorizationEntries (hs : Headers) : Headers :=
  hs.filter (fun h => h.1 = "Authorization")

/-- A manager without provider whose default headers were set to
Content-Type: application/json, as `UserProxy` configures them. -/
def jsonManager : NetworkManager Unit :=
  NetworkManager.new
    { RequestConfig.default with defaultHeaders := [("Content-Type", "application/json")] }

/-- A manager without provider that holds the access token "tok" and whose
default headers carry an Authorization entry, as
`setDefaultHeader("Authorization", "Basic abc")` leaves it. -/
def basicAuthManager : NetworkManager Unit :=
  { (NetworkManager.new
      { RequestConfig.default with defaultHeaders := [("Authorization", "Basic abc")] } :
      NetworkManager Unit) with
    accessToken_ := "tok" }

/-- The context `get("/items", {{"Authorization", "Basic abc"}}, callback)` builds. -/
def getItemsBasic : RequestContext :=
  { RequestContext.default with
    path := "/items", method := "GET", headers := [("Authorization", "Basic abc")] }


/-! ## UserProxy.cpp -/

/-- Embeds `json::value(key, false)`: the boolean stored under the key, the default
when an object lacks the key, and `none` where the library throws. -/
def Json.valueBool : Json → String → Bool → Option Bool
  | .obj kvs, key, dflt =>
    match kvs.lookup key with
    | none => some dflt
    | some (.bool b) => some b
    | some _ => none
  | _, _, _ => none

/-- Embeds `UserTokenProvider::setTokens`. -/
def UserTokenProvider.setTokens (p : UserTokenProvider) (access refresh : String) :
    UserTokenProvider :=
  { p with accessToken_ := access, refreshToken_ := refresh }

/-- Embeds `NetworkManager::setRefreshToken`. -/
def NetworkManager.setRefreshToken {π : Type} (m : NetworkManager π) (token : String) :
    NetworkManager π :=
  { m with refreshToken_ := token }

/-- Embeds `NetworkManager::clearTokens`. -/
def NetworkManager.clearTokens {π : Type} (m : NetworkManager π) : NetworkManager π :=
  { m with accessToken_ := "", refreshToken_ := "" }

/-- Embeds `NetworkManager::get(path, callback)`. -/
def NetworkManager.get {π : Type} (env : Env) (fuel : Nat) (w : World π) (path : String) :
    Option (World π) :=
  executeWithRetry env fuel w { RequestContext.default with path := path, method := "GET" }

/-- Embeds `NetworkManager::postRaw(path, body, contentType, headers, callback)`. -/
def NetworkManager.postRaw {π : Type} (env : Env) (fuel : Nat) (w : World π)
    (path body contentType : String) (headers : Headers) : Option (World π) :=
  executeWithRetry env fuel w
    { RequestContext.default with
      path := path, method := "POST", headers := headers, body := body,
      contentType := contentType }

/-- Embeds `NetworkManager::post(path, jsonData, callback)`; `dump` is `json::dump`. -/
def NetworkManager.post {π : Type} (env : Env) (dump : Json → String) (fuel : Nat)
    (w : World π) (path : String) (jsonData : Json) : Option (World π) :=
  NetworkManager.postRaw env fuel w path (dump jsonData) "application/json" []

/-- The response the callback of a finished chain received. -/
def delivered {π : Type} (w : World π) : Option NetworkResponse :=
  match w.trace.getLast? with
  | some (.callback r) => some r
  | _ => none

/-- Embeds `struct UserData` of `UserProxy`. -/
structure UserData where
  username : String
  accessToken : String
  refreshToken : String
  isVerify : Bool
  isLogin : Bool
deriving DecidableEq, Repr

/-- The data members of `class UserProxy`: `userData`, and in `world` the
manager `networkManager_` points to, the provider `tokenProvider_` points to
and the trace of what the manager did. -/
structure UserProxy where
  userData : UserData
  world : World UserTokenProvider

/-- Embeds `UserProxy::UserProxy`.  The constructor does not initialise
`userData.isVerify`, so its value is an argument; `requestTime` is the text
the interceptor puts into X-Request-Time, and `refreshReplies` is what the
refresh endpoint will answer. -/
def UserProxy.new (env : Env) (requestTime : String) (isVerify : Bool)
    (refreshReplies : Nat → NetworkResponse) : UserProxy :=
  { userData :=
      { username := "", accessToken := "", refreshToken := "", isVerify := isVerify,
        isLogin := false },
    world :=
      { manager :=
          { (NetworkManager.new
              { RequestConfig.default with
                baseUrl := "sample.com", port := 443, useSSL := true, verifySSL := false,
                connectionTimeout := 10, readTimeout := 10,
                defaultHeaders := [("Content-Type", "application/json")],
                maxRetries := 3, retryDelayMs := 1000,
                retryOnStatusCodes := [401, 403, 503] } :
              NetworkManager UserTokenProvider) with
            tokenProvider_ := some (UserTokenProvider.asTokenProvider env),
            autoRefreshToken_ := true,
            requestInterceptor_ :=
              some (fun headers => headers ++ [("X-Request-Time", requestTime)]) },
        provider :=
          { accessToken_ := "", refreshToken_ := "", refreshReplies := refreshReplies,
            posts := 0 },
        trace := [] } }

/-- The `catch` block of the login callback: what `e.what()` returns is `what`. -/
def UserProxy.parseFailed (px : UserProxy) (userData : UserData) (what : String) :
    UserProxy × (Bool × String) :=
  ({ px with userData := { userData with isLogin := false } },
    (false, "Failed to parse response: " ++ what))

/-- The callback `UserProxy::login` passes to `post`: the proxy afterwards and
the pair handed to the caller's callback. -/
def UserProxy.onLoginResponse (env : Env) (what : String) (px : UserProxy)
    (username : String) (response : NetworkResponse) : UserProxy × (Bool × String) :=
  if response.success = true then
    match env.json_parse response.body with
    | none => UserProxy.parseFailed px px.userData what
    | some jsonResponse =>
      let u1 := { px.userData with username := username }
      match jsonResponse.value "access_token" "" with
      | none => UserProxy.parseFailed px u1 what
      | some access =>
        let u2 := { u1 with accessToken := access }
        match jsonResponse.value "refresh_token" "" with
        | none => UserProxy.parseFailed px u2 what
        | some refresh =>
          let u3 := { u2 with refreshToken := refresh }
          match jsonResponse.valueBool "is_verify" false with
          | none => UserProxy.parseFailed px u3 what
          | some verify =>
            ({ userData := { u3 with isVerify := verify, isLogin := true },
               world :=
                { px.world with
                  provider := px.world.provider.setTokens access refresh,
                  manager :=
                    (px.world.manager.setAccessToken access).setRefreshToken refresh } },
              (true, "Login successful"))
  else ({ px with userData := { px.userData with isLogin := false } },
    (false, response.errorMessage))

/-- Embeds `UserProxy::login`: the POST to the login endpoint, then the callback. -/
def UserProxy.login (env : Env) (dump : Json → String) (what : String) (fuel : Nat)
    (px : UserProxy) (username password : String) : Option (UserProxy × (Bool × String)) :=
  match NetworkManager.post env dump fuel px.world "/api/v1/auth/login"
      (.obj [("email", .str username), ("password", .str password)]) with
  | none => none
  | some w1 =>
    match delivered w1 with
    | some response =>
      some (UserProxy.onLoginResponse env what { px with world := w1 } username response)
    | none => none

/-- Embeds `UserProxy::logout`. -/
def UserProxy.logout (px : UserProxy) : UserProxy :=
  { px with
    userData :=
      { px.userData with
        accessToken := "", refreshToken := "", isVerify := false, isLogin := false } }

/-- A login endpoint that answers 200 with a body holding the access token
"A", the refresh token "R" and is_verify = true. -/
def loginEnv : Env :=
  { transport := fun _ _ => some { status := 200, body := "body", headers := [] },
    json_parse := fun _ =>
      some (.obj [("access_token", .str "A"), ("is_verify", .bool true),
        ("refresh_token", .str "R")]),
    params_to_query_str := fun _ => "" }

/-- A fresh `UserProxy`, then `login("ann", "pw", callback)`, then `logout()`. -/
def loggedOutAfterLogin : Option UserProxy :=
  (UserProxy.login loginEnv (fun _ => "credentials") "" 4
      (UserProxy.new loginEnv "0" false (fun _ => NetworkResponse.default)) "ann" "pw").map
    (fun out => UserProxy.logout out.1)


/-- The spec's ResponseOutcome invariant: success exactly when the status code
is in [200, 300), and an error message exactly when there is no success. -/
def OutcomeInvariant (r : NetworkResponse) : Prop :=
  (r.success = true ↔ 200 ≤ r.statusCode ∧ r.statusCode < 300) ∧
    (r.errorMessage ≠ "" ↔ r.success = false)


/-! ## Sample values for the body policy and for transport failures -/

/-- One multipart part: a small file upload. -/
def avatarPart : MultipartFormData :=
  { name := "avatar", content := "png-bytes", filename := "a.png", content_type := "image/png" }

/-- A transport on which no exchange succeeds: every call ends with the null
result. -/
def unreachableEnv : Env :=
  { transport := fun _ _ => none,
    json_parse := fun _ => none,
    params_to_query_str := fun _ => "" }

/-- Number of retry delays in a trace. -/
def sleeps (tr : List Event) : Nat :=
  tr.countP (fun e => match e with | .sleep _ => true | _ => false)


/-! ## Vocabulary and sample values for the refresh, header and body claims -/

/-- The header sets handed to the client, one per client call of a trace. -/
def dispatchedHeaders (tr : List Event) : List Headers :=
  tr.filterMap (fun e => match e with | .exchange d => some d.headers | _ => none)

/-- Header names are compared without regard to case, as `httplib::Headers`
does: whether a key is the name Authorization in some spelling. -/
def isAuthorizationKey (key : String) : Bool :=
  key.data.map Char.toLower == "authorization".data

/-- The entries of a header set whose key is the name Authorization in any
spelling. -/
def authorizationHeaders (hs : Headers) : Headers :=
  hs.filter (fun h => isAuthorizationKey h.1)

/-- A provider whose refresh reports the token "fresh" but whose
`getAccessToken` keeps returning "stale": it does not store what it reports. -/
def staleReporter : TokenProvider Unit :=
  { getAccessToken := fun _ => "stale",
    getRefreshToken := fun _ => "r",
    refreshAccessToken := fun _ => ((true, "fresh"), ()) }

/-- A manager built by the constructor from the default configuration, with
`staleReporter` set as its token provider. -/
def staleManager : NetworkManager Unit :=
  { (NetworkManager.new RequestConfig.default : NetworkManager Unit) with
    tokenProvider_ := some staleReporter }

/-- A manager without provider and without default headers that holds the
access token "tok". -/
def tokenManager : NetworkManager Unit :=
  { (NetworkManager.new RequestConfig.default : NetworkManager Unit) with
    accessToken_ := "tok" }

/-- The context `get("/items", {{"authorization", "Basic abc"}}, callback)` builds. -/
def getItemsLowercase : RequestContext :=
  { RequestContext.default with
    path := "/items", method := "GET", headers := [("authorization", "Basic abc")] }

/-! ## The public entry points -/

/-- The context `NetworkManager::get(path, headers, params, callback)` builds. -/
def getContext (path : String) (headers : Headers) (params : Params) : RequestContext :=
  { RequestContext.default with
    path := path, method := "GET", headers := headers, params := params }

/-- The context `NetworkManager::postForm(path, params, headers, callback)` builds. -/
def postFormContext (env : Env) (path : String) (params : Params) (headers : Headers) :
    RequestContext :=
  { RequestContext.default with
    path := path, method := "POST", headers := headers,
    body := env.params_to_query_str params,
    contentType := "application/x-www-form-urlencoded" }

/-- The context `NetworkManager::postMultipart(path, items, headers, callback)`
builds. -/
def postMultipartContext (path : String) (items : List MultipartFormData)
    (headers : Headers) : RequestContext :=
  { RequestContext.default with
    path := path, method := "POST", headers := headers, multipartItems := items }

/-- The context `NetworkManager::postRaw(path, body, contentType, headers,
callback)` builds; `post` passes `jsonData.dump()` and "application/json". -/
def postRawContext (path body contentType : String) (headers : Headers) : RequestContext :=
  { RequestContext.default with
    path := path, method := "POST", headers := headers, body := body,
    contentType := contentType }

/-- The context `NetworkManager::putRaw(path, body, contentType, headers,
callback)` builds; `put` passes `jsonData.dump()` and "application/json". -/
def putRawContext (path body contentType : String) (headers : Headers) : RequestContext :=
  { RequestContext.default with
    path := path, method := "PUT", headers := headers, body := body,
    contentType := contentType }

/-- The context `NetworkManager::del(path, headers, callback)` builds. -/
def delContext (path : String) (headers : Headers) : RequestContext :=
  { RequestContext.default with path := path, method := "DELETE", headers := headers }

/-- The context `NetworkManager::patch(path, jsonData, headers, callback)`
builds; `jsonStr` is `jsonData.dump()`. -/
def patchContext (path jsonStr : String) (headers : Headers) : RequestContext :=
  { RequestContext.default with
    path := path, method := "PATCH", headers := headers, body := jsonStr,
    contentType := "application/json" }

/-- The contexts `executeRequest` is called with: `executeRequest` and
`executeWithRetry` are private, so a context is what one of the public entry
points built, with `retryCount` as far as the chain has advanced it. -/
def EntryPointContext (env : Env) (context : RequestContext) : Prop :=
  ∃ c : RequestContext, context = { c with retryCount := context.retryCount } ∧
    ((∃ path headers params, c = getContext path headers params) ∨
      (∃ path params headers, c = postFormContext env path params headers) ∨
      (∃ path items headers, c = postMultipartContext path items headers) ∨
      (∃ path body contentType headers, c = postRawContext path body contentType headers) ∨
      (∃ path body contentType headers, c = putRawContext path body contentType headers) ∨
      (∃ path headers, c = delContext path headers) ∨
      (∃ path jsonStr headers, c = patchContext path jsonStr headers))

/-- The context `postMultipart("/profile", {avatarPart}, callback)` builds. -/
def uploadAvatar : RequestContext :=
  postMultipartContext "/profile" [avatarPart] []


/-! ## Helper lemmas -/

theorem mergeHeaders_eq {π : Type} (m : NetworkManager π) (requestHeaders : Headers) :
    mergeHeaders m requestHeaders = m.config_.defaultHeaders ++ requestHeaders := by
  unfold mergeHeaders
  generalize m.config_.defaultHeaders = acc
  induction requestHeaders generalizing acc with
  | nil => simp
  | cons h t ih => simp [List.foldl, ih]

theorem exchanges_append (a b : List Event) : exchanges (a ++ b) = exchanges a + exchanges b := by
  simp [exchanges, List.countP_append]

theorem refreshes_append (a b : List Event) : refreshes (a ++ b) = refreshes a + refreshes b := by
  simp [refreshes, List.countP_append]

theorem callbacks_append (a b : List Event) : callbacks (a ++ b) = callbacks a + callbacks b := by
  simp [callbacks, List.countP_append]

theorem shouldRetry_lt {π : Type} (m : NetworkManager π) (statusCode retryCount : Int)
    (h : m.shouldRetry statusCode retryCount = true) : retryCount < m.config_.maxRetries := by
  unfold NetworkManager.shouldRetry at h
  by_cases hge : retryCount ≥ m.config_.maxRetries
  · simp [hge] at h
  · omega

theorem shouldRetry_of_lt {π : Type} (m : NetworkManager π) (statusCode retryCount : Int)
    (hlt : retryCount < m.config_.maxRetries) (hmem : statusCode ∈ m.config_.retryOnStatusCodes) :
    m.shouldRetry statusCode retryCount = true := by
  unfold NetworkManager.shouldRetry
  have hge : ¬ retryCount ≥ m.config_.maxRetries := by omega
  simp [hge, hmem]

theorem shouldRetry_of_ge {π : Type} (m : NetworkManager π) (statusCode retryCount : Int)
    (hge : retryCount ≥ m.config_.maxRetries) : m.shouldRetry statusCode retryCount = false := by
  unfold NetworkManager.shouldRetry
  simp [hge]

/-- The dispatch block leaves manager and provider alone and appends at most
one client call to the trace. -/
theorem clientCall_step {π : Type} (env : Env) (w : World π) (d : Dispatch) :
    ∃ ex : List Event, (clientCall env w d).2 = { w with trace := w.trace ++ ex } ∧
      (ex = [] ∨ ∃ d1, ex = [.exchange d1]) := by
  unfold clientCall
  split
  · exact ⟨[.exchange { d with secure := true }], rfl, Or.inr ⟨_, rfl⟩⟩
  · split
    · exact ⟨[.exchange { d with secure := false }], rfl, Or.inr ⟨_, rfl⟩⟩
    · exact ⟨[], by simp, Or.inl rfl⟩

/-- What one call of `executeRequest` may do to the world: nothing, or one
client call appended to the trace. -/
theorem executeRequest_step {π : Type} (env : Env) (w : World π) (context : RequestContext) :
    ∃ ex : List Event, (executeRequest env w context).2 = { w with trace := w.trace ++ ex } ∧
      (ex = [] ∨ ∃ d1, ex = [.exchange d1]) := by
  have hnil : ∃ ex : List Event, w = { w with trace := w.trace ++ ex } ∧
      (ex = [] ∨ ∃ d1, ex = [.exchange d1]) := ⟨[], by simp, Or.inl rfl⟩
  unfold executeRequest
  simp only [doGet, doPost, doPostMultipart, doPut, doDelete, doPatch]
  repeat' split
  all_goals first
    | exact hnil
    | exact clientCall_step env w _

theorem clientCall_initialized {π : Type} (env : Env) (w : World π) (d : Dispatch)
    (hI : Initialized w.manager) :
    clientCall env w d =
      (env.transport (exchanges w.trace) { d with secure := w.manager.config_.useSSL },
        w.emit (.exchange { d with secure := w.manager.config_.useSSL })) := by
  obtain ⟨h1, h2⟩ := hI
  unfold clientCall
  cases hu : w.manager.config_.useSSL <;> simp [hu, h1, h2]

/-- On a constructed manager a request of a known method makes exactly one
client call; its headers are the default headers merged with the request
headers after token injection and interception. -/
theorem executeRequest_known {π : Type} (env : Env) (w : World π) (context : RequestContext)
    (hI : Initialized w.manager) (hK : KnownMethod context.method) :
    ∃ d : Dispatch,
      executeRequest env w context =
        (processResponse env (env.transport (exchanges w.trace) d), w.emit (.exchange d)) ∧
      d.headers = mergeHeaders w.manager
        (match w.manager.requestInterceptor_ with
          | some interceptor =>
            interceptor (injectAuthToken w.manager w.provider context.headers)
          | none => injectAuthToken w.manager w.provider context.headers) := by
  have hc : (!w.manager.sslClient_ && !w.manager.httpClient_) = false := by
    obtain ⟨h1, h2⟩ := hI
    cases hu : w.manager.config_.useSSL <;> simp [hu, h1, h2]
  rcases hK with h | h | h | h | h
  · refine ⟨{ secure := w.manager.config_.useSSL, method := "GET",
              path := if context.params ≠ [] then
                context.path ++ ("?" ++ env.params_to_query_str context.params)
                else context.path,
              headers := _, payload := .none }, ?_, rfl⟩
    simp [executeRequest, mergeHeaders, h, doGet, hc, clientCall_initialized env w _ hI]
  · by_cases hm : context.multipartItems = []
    · refine ⟨{ secure := w.manager.config_.useSSL, method := "POST", path := context.path,
                headers := _, payload := .raw context.body context.contentType }, ?_, rfl⟩
      simp [executeRequest, mergeHeaders, h, hm, doPost, hc, clientCall_initialized env w _ hI]
    · refine ⟨{ secure := w.manager.config_.useSSL, method := "POST", path := context.path,
                headers := _, payload := .multipart context.multipartItems }, ?_, rfl⟩
      simp [executeRequest, mergeHeaders, h, hm, doPostMultipart, hc, clientCall_initialized env w _ hI]
  · refine ⟨{ secure := w.manager.config_.useSSL, method := "PUT", path := context.path,
              headers := _, payload := .raw context.body context.contentType }, ?_, rfl⟩
    simp [executeRequest, mergeHeaders, h, doPut, hc, clientCall_initialized env w _ hI]
  · refine ⟨{ secure := w.manager.config_.useSSL, method := "DELETE", path := context.path,
              headers := _, payload := .none }, ?_, rfl⟩
    simp [executeRequest, mergeHeaders, h, doDelete, hc, clientCall_initialized env w _ hI]
  · refine ⟨{ secure := w.manager.config_.useSSL, method := "PATCH", path := context.path,
              headers := _, payload := .raw context.body context.contentType }, ?_, rfl⟩
    simp [executeRequest, mergeHeaders, h, doPatch, hc, clientCall_initialized env w _ hI]

theorem executeWithRetry_succ {π : Type} (env : Env) (fuel : Nat) (w : World π)
    (context : RequestContext) :
    executeWithRetry env (fuel + 1) w context =
      if (executeRequest env w context).1.success = false ∧
          (executeRequest env w context).2.manager.shouldRetry
            (executeRequest env w context).1.statusCode context.retryCount = true then
        if (executeRequest env w context).2.manager.autoRefreshToken_ = true ∧
            (executeRequest env w context).2.manager.tokenProvider_.isSome = true ∧
            ((executeRequest env w context).1.statusCode = 401 ∨
              (executeRequest env w context).1.statusCode = 403) then
          handleTokenRefresh (executeWithRetry env fuel) (executeRequest env w context).2 context
        else
          executeWithRetry env fuel
            ((executeRequest env w context).2.emit
              (.sleep (executeRequest env w context).2.manager.config_.retryDelayMs))
            { context with retryCount := context.retryCount + 1 }
      else some ((executeRequest env w context).2.emit
        (.callback (executeRequest env w context).1)) := rfl

/-- Summary of a chain: with enough fuel it ends, its last event is the only
callback invocation, and refreshes and client calls are bounded by the retry
budget. -/
theorem executeWithRetry_summary {π : Type} (env : Env) (fuel : Nat) :
    ∀ (w : World π) (context : RequestContext),
      (w.manager.config_.maxRetries - context.retryCount).toNat + 1 ≤ fuel →
      ∃ (w1 : World π) (mid : List Event) (r : NetworkResponse),
        executeWithRetry env fuel w context = some w1 ∧
        w1.trace = w.trace ++ mid ++ [.callback r] ∧
        callbacks mid = 0 ∧
        refreshes mid ≤ (w.manager.config_.maxRetries - context.retryCount).toNat ∧
        exchanges mid ≤ (w.manager.config_.maxRetries - context.retryCount).toNat + 1 := by
  induction fuel with
  | zero =>
    intro w context h
    omega
  | succ n ih =>
    intro w context hfuel
    rw [executeWithRetry_succ]
    obtain ⟨ex, hex, hshape⟩ := executeRequest_step env w context
    have hcb : callbacks ex = 0 := by
      rcases hshape with h | ⟨d, h⟩ <;> subst h <;> rfl
    have hrf : refreshes ex = 0 := by
      rcases hshape with h | ⟨d, h⟩ <;> subst h <;> rfl
    have hxc : exchanges ex ≤ 1 := by
      rcases hshape with h | ⟨d, h⟩ <;> subst h <;> simp [exchanges]
    generalize executeRequest env w context = out at hex ⊢
    obtain ⟨response, w0⟩ := out
    simp only at hex ⊢
    subst hex
    split
    · rename_i hretry
      have hlt := shouldRetry_lt _ _ _ hretry.2
      simp only at hlt
      split
      · -- token refresh
        unfold handleTokenRefresh
        simp only
        split
        · exact ⟨_, ex, _, rfl, rfl, hcb, by omega, by omega⟩
        · rename_i P hP
          split
          · obtain ⟨w1, mid, r, hrun, htr, hc, hr, hx⟩ :=
              ih { manager := w.manager.setAccessToken (P.refreshAccessToken w.provider).1.2,
                   provider := (P.refreshAccessToken w.provider).2,
                   trace := w.trace ++ ex ++
                    [.refresh (P.refreshAccessToken w.provider).1.1
                      (P.refreshAccessToken w.provider).1.2] }
                { context with retryCount := context.retryCount + 1 }
                (by simp only [NetworkManager.setAccessToken]; omega)
            simp only [NetworkManager.setAccessToken] at hr hx
            refine ⟨w1, ex ++ [.refresh (P.refreshAccessToken w.provider).1.1
                      (P.refreshAccessToken w.provider).1.2] ++ mid, r, hrun, ?_, ?_, ?_, ?_⟩
            · rw [htr]; simp
            · simp only [callbacks_append, hcb, hc]; rfl
            · simp only [refreshes_append, hrf]
              have : refreshes [Event.refresh (P.refreshAccessToken w.provider).1.1
                      (P.refreshAccessToken w.provider).1.2] = 1 := rfl
              omega
            · simp only [exchanges_append]
              have : exchanges [Event.refresh (P.refreshAccessToken w.provider).1.1
                      (P.refreshAccessToken w.provider).1.2] = 0 := rfl
              omega
          · refine ⟨_, ex ++ [.refresh (P.refreshAccessToken w.provider).1.1
                      (P.refreshAccessToken w.provider).1.2],
                refreshFailed "Token refresh failed", rfl, by simp [World.emit], ?_, ?_, ?_⟩
            · simp only [callbacks_append, hcb]; rfl
            · simp only [refreshes_append, hrf]
              have : refreshes [Event.refresh (P.refreshAccessToken w.provider).1.1
                      (P.refreshAccessToken w.provider).1.2] = 1 := rfl
              omega
            · simp only [exchanges_append]
              have : exchanges [Event.refresh (P.refreshAccessToken w.provider).1.1
                      (P.refreshAccessToken w.provider).1.2] = 0 := rfl
              omega
      · -- plain retry after the delay
        obtain ⟨w1, mid, r, hrun, htr, hc, hr, hx⟩ :=
          ih ((World.mk w.manager w.provider (w.trace ++ ex)).emit
                (.sleep w.manager.config_.retryDelayMs))
            { context with retryCount := context.retryCount + 1 }
            (by simp only [World.emit]; omega)
        simp only [World.emit] at hr hx htr
        refine ⟨w1, ex ++ [.sleep w.manager.config_.retryDelayMs] ++ mid, r, hrun, ?_, ?_, ?_, ?_⟩
        · rw [htr]; simp
        · simp only [callbacks_append, hcb, hc]; rfl
        · simp only [refreshes_append, hrf]
          have : refreshes [Event.sleep w.manager.config_.retryDelayMs] = 0 := rfl
          omega
        · simp only [exchanges_append]
          have : exchanges [Event.sleep w.manager.config_.retryDelayMs] = 0 := rfl
          omega
    · exact ⟨_, ex, _, rfl, rfl, hcb, by omega, by omega⟩

theorem processResponse_some_statusCode (env : Env) (r : HttpResponse) :
    (processResponse env (some r)).statusCode = r.status := by
  unfold processResponse
  by_cases hs : r.status ≥ 200 ∧ r.status < 300
  · simp [hs]
  · by_cases hb : r.body = ""
    · simp [hs, hb]
    · cases hp : env.json_parse r.body <;> simp [hs, hb, hp]

theorem processResponse_some_success (env : Env) (r : HttpResponse) :
    (processResponse env (some r)).success = decide (r.status ≥ 200 ∧ r.status < 300) := by
  unfold processResponse
  by_cases hs : r.status ≥ 200 ∧ r.status < 300
  · simp [hs]
  · by_cases hb : r.body = ""
    · simp [hs, hb]
    · cases hp : env.json_parse r.body <;> simp [hs, hb, hp]

/-- A chain on which the refresh branch does not apply and every client call
is answered with the same retryable failure status: the request is attempted
until the retry budget is used up, then the last response is delivered. -/
theorem executeWithRetry_plain_chain {π : Type} (env : Env) (s : Int)
    (hT : ∀ n d, ∃ r, env.transport n d = some r ∧ r.status = s)
    (hs : ¬ (s ≥ 200 ∧ s < 300)) (fuel : Nat) :
    ∀ (w : World π) (context : RequestContext),
      Initialized w.manager → KnownMethod context.method →
      s ∈ w.manager.config_.retryOnStatusCodes →
      ¬ (w.manager.autoRefreshToken_ = true ∧ w.manager.tokenProvider_.isSome = true ∧
          (s = 401 ∨ s = 403)) →
      context.retryCount ≤ w.manager.config_.maxRetries →
      (w.manager.config_.maxRetries - context.retryCount).toNat + 1 ≤ fuel →
      ∃ (w1 : World π) (mid : List Event) (r : NetworkResponse),
        executeWithRetry env fuel w context = some w1 ∧
        w1.trace = w.trace ++ mid ++ [.callback r] ∧
        callbacks mid = 0 ∧ refreshes mid = 0 ∧
        exchanges mid = (w.manager.config_.maxRetries - context.retryCount).toNat + 1 ∧
        r.success = false ∧ r.statusCode = s ∧
        ∃ k d, r = processResponse env (env.transport k d) := by
  induction fuel with
  | zero =>
    intro w context _ _ _ _ _ h
    omega
  | succ n ih =>
    intro w context hI hK hmem hnr hle hfuel
    obtain ⟨d, hd, -⟩ := executeRequest_known env w context hI hK
    obtain ⟨r0, hr0, hst⟩ := hT (exchanges w.trace) d
    have hsucc : (processResponse env (some r0)).success = false := by
      rw [processResponse_some_success, hst]
      simpa using hs
    have hcode : (processResponse env (some r0)).statusCode = s := by
      rw [processResponse_some_statusCode, hst]
    rw [executeWithRetry_succ, hd, hr0]
    simp only [World.emit, hsucc, hcode, true_and]
    by_cases hlt : context.retryCount < w.manager.config_.maxRetries
    · rw [if_pos (shouldRetry_of_lt _ _ _ hlt hmem), if_neg hnr]
      obtain ⟨w1, mid, r, hrun, htr, hc, hr, hx, hrs, hrc, hk⟩ :=
        ih { manager := w.manager, provider := w.provider,
             trace := w.trace ++ [.exchange d] ++ [.sleep w.manager.config_.retryDelayMs] }
          { context with retryCount := context.retryCount + 1 } hI hK hmem hnr
          (by simp only; omega) (by simp only; omega)
      simp only at hx htr
      refine ⟨w1, [.exchange d] ++ [.sleep w.manager.config_.retryDelayMs] ++ mid, r, hrun,
        ?_, ?_, ?_, ?_, hrs, hrc, hk⟩
      · rw [htr]; simp
      · simp only [callbacks_append, hc]; rfl
      · simp only [refreshes_append, hr]; rfl
      · simp only [exchanges_append, hx]
        have h1 : exchanges [Event.exchange d] = 1 := rfl
        have h2 : exchanges [Event.sleep w.manager.config_.retryDelayMs] = 0 := rfl
        omega
    · have hge : context.retryCount ≥ w.manager.config_.maxRetries := by omega
      have hno : ¬ (w.manager.shouldRetry s context.retryCount = true) := by
        rw [shouldRetry_of_ge _ _ _ hge]
        simp
      rw [if_neg hno]
      refine ⟨_, [.exchange d], _, rfl, rfl, rfl, rfl, ?_, hsucc, hcode,
        exchanges w.trace, d, by rw [hr0]⟩
      have h1 : exchanges [Event.exchange d] = 1 := rfl
      omega

/-- A chain on which every client call is answered with 401 (or every call
with 403), auto-refresh is on and the provider's refresh always reports a
non-empty token: every failure within the retry budget is followed by one
refresh, and the failure that finds the budget used up is delivered. -/
theorem executeWithRetry_refresh_chain {π : Type} (env : Env) (s : Int) (P : TokenProvider π)
    (hT : ∀ n d, ∃ r, env.transport n d = some r ∧ r.status = s)
    (hs : s = 401 ∨ s = 403)
    (hP : ∀ p, (P.refreshAccessToken p).1.1 = true ∧ (P.refreshAccessToken p).1.2 ≠ "")
    (fuel : Nat) :
    ∀ (w : World π) (context : RequestContext),
      Initialized w.manager → KnownMethod context.method →
      s ∈ w.manager.config_.retryOnStatusCodes →
      w.manager.autoRefreshToken_ = true → w.manager.tokenProvider_ = some P →
      context.retryCount ≤ w.manager.config_.maxRetries →
      (w.manager.config_.maxRetries - context.retryCount).toNat + 1 ≤ fuel →
      ∃ (w1 : World π) (mid : List Event) (r : NetworkResponse),
        executeWithRetry env fuel w context = some w1 ∧
        w1.trace = w.trace ++ mid ++ [.callback r] ∧
        callbacks mid = 0 ∧
        refreshes mid = (w.manager.config_.maxRetries - context.retryCount).toNat ∧
        exchanges mid = (w.manager.config_.maxRetries - context.retryCount).toNat + 1 ∧
        r.success = false ∧ r.statusCode = s := by
  have hs2 : ¬ (s ≥ 200 ∧ s < 300) := by omega
  induction fuel with
  | zero =>
    intro w context _ _ _ _ _ _ h
    omega
  | succ n ih =>
    intro w context hI hK hmem hauto hprov hle hfuel
    obtain ⟨d, hd, -⟩ := executeRequest_known env w context hI hK
    obtain ⟨r0, hr0, hst⟩ := hT (exchanges w.trace) d
    have hsucc : (processResponse env (some r0)).success = false := by
      rw [processResponse_some_success, hst]
      simpa using hs2
    have hcode : (processResponse env (some r0)).statusCode = s := by
      rw [processResponse_some_statusCode, hst]
    rw [executeWithRetry_succ, hd, hr0]
    simp only [World.emit, hsucc, hcode, true_and]
    by_cases hlt : context.retryCount < w.manager.config_.maxRetries
    · have hcond : w.manager.autoRefreshToken_ = true ∧
          w.manager.tokenProvider_.isSome = true ∧ (s = 401 ∨ s = 403) :=
        ⟨hauto, by rw [hprov]; rfl, hs⟩
      rw [if_pos (shouldRetry_of_lt _ _ _ hlt hmem), if_pos hcond]
      unfold handleTokenRefresh
      simp only [hprov]
      rw [if_pos (hP w.provider)]
      obtain ⟨w1, mid, r, hrun, htr, hc, hr, hx, hrs, hrc⟩ :=
        ih { manager := w.manager.setAccessToken (P.refreshAccessToken w.provider).1.2,
             provider := (P.refreshAccessToken w.provider).2,
             trace := w.trace ++ [.exchange d] ++
              [.refresh (P.refreshAccessToken w.provider).1.1
                (P.refreshAccessToken w.provider).1.2] }
          { context with retryCount := context.retryCount + 1 } hI hK hmem hauto hprov
          (by simp only [NetworkManager.setAccessToken]; omega)
          (by simp only [NetworkManager.setAccessToken]; omega)
      simp only [NetworkManager.setAccessToken] at hx htr hr
      refine ⟨w1, [.exchange d] ++ [.refresh (P.refreshAccessToken w.provider).1.1
                (P.refreshAccessToken w.provider).1.2] ++ mid, r, hrun, ?_, ?_, ?_, ?_, hrs, hrc⟩
      · rw [htr]; simp
      · simp only [callbacks_append, hc]; rfl
      · simp only [refreshes_append, hr]
        have h1 : refreshes [Event.exchange d] = 0 := rfl
        have h2 : refreshes [Event.refresh (P.refreshAccessToken w.provider).1.1
                (P.refreshAccessToken w.provider).1.2] = 1 := rfl
        omega
      · simp only [exchanges_append, hx]
        have h1 : exchanges [Event.exchange d] = 1 := rfl
        have h2 : exchanges [Event.refresh (P.refreshAccessToken w.provider).1.1
                (P.refreshAccessToken w.provider).1.2] = 0 := rfl
        omega
    · have hge : context.retryCount ≥ w.manager.config_.maxRetries := by omega
      have hno : ¬ (w.manager.shouldRetry s context.retryCount = true) := by
        rw [shouldRetry_of_ge _ _ _ hge]
        simp
      rw [if_neg hno]
      refine ⟨_, [.exchange d], _, rfl, rfl, rfl, ?_, ?_, hsucc, hcode⟩
      · have h1 : refreshes [Event.exchange d] = 0 := rfl
        omega
      · have h1 : exchanges [Event.exchange d] = 1 := rfl
        omega

/-! ## Retry decision, classification and the status table -/

/-- C1: `shouldRetry(statusCode, retryCount)` is true exactly when
`retryCount < maxRetries` and `statusCode` is one of the configured retryable
status codes, whatever the manager's configuration. -/
theorem shouldRetry_iff {π : Type} (m : NetworkManager π) (statusCode retryCount : Int) :
    m.shouldRetry statusCode retryCount = true ↔
      retryCount < m.config_.maxRetries ∧ statusCode ∈ m.config_.retryOnStatusCodes := by
  unfold NetworkManager.shouldRetry
  by_cases h : retryCount ≥ m.config_.maxRetries
  · simp only [h, if_true]
    constructor
    · intro hf
      cases hf
    · rintro ⟨hlt, -⟩
      omega
  · have hlt : retryCount < m.config_.maxRetries := by omega
    simp [h, hlt]

/-- C7: for a request whose method is none of GET, POST, PUT, DELETE, PATCH,
`executeRequest` returns success = false, statusCode = 0 and the non-empty
message "Unknown method", and leaves the trace as it was: no client call is
made. -/
theorem executeRequest_unknown_method {π : Type} (env : Env) (w : World π)
    (context : RequestContext)
    (hGet : context.method ≠ "GET") (hPost : context.method ≠ "POST")
    (hPut : context.method ≠ "PUT") (hDelete : context.method ≠ "DELETE")
    (hPatch : context.method ≠ "PATCH") :
    (executeRequest env w context).1.success = false ∧
      (executeRequest env w context).1.statusCode = 0 ∧
      (executeRequest env w context).1.errorMessage = "Unknown method" ∧
      (executeRequest env w context).1.errorMessage ≠ "" ∧
      (executeRequest env w context).2.trace = w.trace ∧
      exchanges (executeRequest env w context).2.trace = exchanges w.trace := by
  have h : executeRequest env w context = (unknownMethod, w) := by
    simp only [executeRequest, hGet, hPost, hPut, hDelete, hPatch, if_false]
  rw [h]
  refine ⟨rfl, rfl, rfl, ?_, rfl, rfl⟩
  simp only [unknownMethod]
  decide

theorem executeRequest_unknown_method_witness :
    (executeRequest (constantEnv 200) ⟨plainManager 3, (), []⟩ traceItems).1.success = false ∧
      (executeRequest (constantEnv 200) ⟨plainManager 3, (), []⟩ traceItems).1.statusCode = 0 ∧
      (executeRequest (constantEnv 200) ⟨plainManager 3, (), []⟩ traceItems).1.errorMessage =
        "Unknown method" ∧
      (executeRequest (constantEnv 200) ⟨plainManager 3, (), []⟩ traceItems).1.errorMessage ≠ "" ∧
      (executeRequest (constantEnv 200) ⟨plainManager 3, (), []⟩ traceItems).2.trace = [] ∧
      exchanges (executeRequest (constantEnv 200) ⟨plainManager 3, (), []⟩ traceItems).2.trace =
        exchanges [] :=
  executeRequest_unknown_method (constantEnv 200) ⟨plainManager 3, (), []⟩ traceItems
    (by decide) (by decide) (by decide) (by decide) (by decide)

/-- C8: for a received HTTP response, `processResponse` copies status and body
into the outcome and sets success exactly when 200 <= status < 300. -/
theorem processResponse_received (env : Env) (r : HttpResponse) :
    (processResponse env (some r)).statusCode = r.status ∧
      (processResponse env (some r)).body = r.body ∧
      ((processResponse env (some r)).success = true ↔ 200 ≤ r.status ∧ r.status < 300) := by
  unfold processResponse
  by_cases hs : r.status ≥ 200 ∧ r.status < 300
  · simp [hs]
  · by_cases hb : r.body = ""
    · simp [hs, hb]
    · cases hp : env.json_parse r.body <;> simp [hs, hb, hp]

/-- C9: for the null result (no HTTP response was obtained), `processResponse`
yields success = false, statusCode = 0 and a message that starts with
"Network error: ". -/
theorem processResponse_transport_failure (env : Env) :
    (processResponse env none).success = false ∧
      (processResponse env none).statusCode = 0 ∧
      ∃ rest : String, (processResponse env none).errorMessage = "Network error: " ++ rest := by
  refine ⟨rfl, rfl, ⟨"Could not connect to server", ?_⟩⟩
  simp only [processResponse]
  decide

/-- C10: `HttpError::getMessage` maps 400, 401, 403, 404, 429 and 500 to their
table entries and every other status code n to "Error " followed by the
decimal rendering of n. -/
theorem getMessage_table :
    HttpError.getMessage 400 = "Bad request" ∧
      HttpError.getMessage 401 = "Invalid credentials" ∧
      HttpError.getMessage 403 = "Access forbidden" ∧
      HttpError.getMessage 404 = "Login endpoint not found" ∧
      HttpError.getMessage 429 = "Too many login attempts" ∧
      HttpError.getMessage 500 = "Server error" ∧
      ∀ n : Int, n ≠ 400 → n ≠ 401 → n ≠ 403 → n ≠ 404 → n ≠ 429 → n ≠ 500 →
        HttpError.getMessage n = "Error " ++ toString n := by
  refine ⟨rfl, rfl, rfl, rfl, rfl, rfl, ?_⟩
  intro n h0 h1 h3 h4 h9 h5
  have e0 : (n == 400) = false := beq_eq_false_iff_ne.mpr h0
  have e1 : (n == 401) = false := beq_eq_false_iff_ne.mpr h1
  have e3 : (n == 403) = false := beq_eq_false_iff_ne.mpr h3
  have e4 : (n == 404) = false := beq_eq_false_iff_ne.mpr h4
  have e9 : (n == 429) = false := beq_eq_false_iff_ne.mpr h9
  have e5 : (n == 500) = false := beq_eq_false_iff_ne.mpr h5
  simp only [HttpError.getMessage, HttpError.statusMessages, List.lookup, to_string, e0, e1, e3,
    e4, e9, e5]

theorem getMessage_table_witness : HttpError.getMessage 418 = "Error " ++ toString (418 : Int) :=
  getMessage_table.2.2.2.2.2.2 418 (by decide) (by decide) (by decide) (by decide) (by decide)
    (by decide)

/-! ## The retry and refresh chain -/

/-- C2: when the retryable codes contain 503, maxRetries >= 0 and the transport
answers every call with status 503, a request (of a known method, on a
constructed manager, starting with retryCount = 0) makes exactly
maxRetries + 1 client calls, never refreshes, and then delivers one outcome
with success = false and statusCode = 503. -/
theorem executeWithRetry_always_503 {π : Type} (env : Env) (w : World π)
    (context : RequestContext) (fuel : Nat)
    (hI : Initialized w.manager) (hK : KnownMethod context.method)
    (h0 : context.retryCount = 0) (hmax : 0 ≤ w.manager.config_.maxRetries)
    (hmem : (503 : Int) ∈ w.manager.config_.retryOnStatusCodes)
    (hT : ∀ n d, ∃ r, env.transport n d = some r ∧ r.status = 503)
    (hfuel : w.manager.config_.maxRetries.toNat + 1 ≤ fuel) :
    ∃ (w1 : World π) (mid : List Event) (r : NetworkResponse),
      executeWithRetry env fuel w context = some w1 ∧
      w1.trace = w.trace ++ mid ++ [.callback r] ∧
      callbacks mid = 0 ∧
      (exchanges mid : Int) = w.manager.config_.maxRetries + 1 ∧
      r.success = false ∧ r.statusCode = 503 := by
  obtain ⟨w1, mid, r, hrun, htr, hc, -, hx, hrs, hrc, -⟩ :=
    executeWithRetry_plain_chain env 503 hT (by omega) fuel w context hI hK hmem
      (by omega) (by omega) (by rw [h0]; simpa using hfuel)
  refine ⟨w1, mid, r, hrun, htr, hc, ?_, hrs, hrc⟩
  rw [hx, h0]
  simp only [sub_zero]
  omega

theorem executeWithRetry_always_503_witness :
    ∃ (w1 : World Unit) (mid : List Event) (r : NetworkResponse),
      executeWithRetry (constantEnv 503) 4 ⟨plainManager 3, (), []⟩ getItems = some w1 ∧
      w1.trace = [] ++ mid ++ [.callback r] ∧
      callbacks mid = 0 ∧
      (exchanges mid : Int) = 3 + 1 ∧
      r.success = false ∧ r.statusCode = 503 :=
  executeWithRetry_always_503 (constantEnv 503) ⟨plainManager 3, (), []⟩ getItems 4
    ⟨rfl, rfl⟩ (Or.inl rfl) rfl (by decide) (by decide) (fun _ _ => ⟨_, rfl, rfl⟩) (by decide)

/-- C3: for every request, every transport behaviour and every token provider
(one callback per refresh), a chain that may start maxRetries - retryCount + 1
threads ends, and the completion callback is invoked exactly once, as the
last thing the chain does. -/
theorem executeWithRetry_callback_once {π : Type} (env : Env) (fuel : Nat) (w : World π)
    (context : RequestContext)
    (hfuel : (w.manager.config_.maxRetries - context.retryCount).toNat + 1 ≤ fuel) :
    ∃ (w1 : World π) (mid : List Event) (r : NetworkResponse),
      executeWithRetry env fuel w context = some w1 ∧
      w1.trace = w.trace ++ mid ++ [.callback r] ∧
      callbacks mid = 0 ∧
      callbacks w1.trace = callbacks w.trace + 1 := by
  obtain ⟨w1, mid, r, hrun, htr, hc, -, -⟩ := executeWithRetry_summary env fuel w context hfuel
  refine ⟨w1, mid, r, hrun, htr, hc, ?_⟩
  rw [htr, callbacks_append, callbacks_append, hc]
  rfl

theorem executeWithRetry_callback_once_witness :
    ∃ (w1 : World Unit) (mid : List Event) (r : NetworkResponse),
      executeWithRetry (constantEnv 401) 2 ⟨freshManager 1, (), []⟩ getItems = some w1 ∧
      w1.trace = [] ++ mid ++ [.callback r] ∧
      callbacks mid = 0 ∧
      callbacks w1.trace = callbacks [] + 1 :=
  executeWithRetry_callback_once (constantEnv 401) 2 ⟨freshManager 1, (), []⟩ getItems
    (by decide)

/-- C4, as the spec states it, fails: with maxRetries = 1, a transport that
always answers 401 and a provider whose refresh always succeeds, one refresh
occurs, which is not more than maxRetries; and with maxRetries = 0 the 401 is
delivered after one client call without any refresh. -/
theorem refresh_bounded_by_maxRetries_example :
    (freshManager 1).config_.maxRetries = 1 ∧
      (executeWithRetry (constantEnv 401) 10 ⟨freshManager 1, (), []⟩ getItems).map
        (fun w => refreshes w.trace) = some 1 ∧
      (freshManager 0).config_.maxRetries = 0 ∧
      (executeWithRetry (constantEnv 401) 10 ⟨freshManager 0, (), []⟩ getItems).map
        (fun w => (exchanges w.trace, refreshes w.trace, callbacks w.trace)) = some (1, 0, 1) := by
  refine ⟨rfl, ?_, rfl, ?_⟩
  · decide
  · decide

/-- C6: when `handleTokenRefresh` runs with a provider whose refresh does not
report success with a non-empty token, the result does not depend on the
retry continuation: after the refresh the callback receives the synthetic
outcome statusCode = 403, success = false, empty body, errorMessage
"Token refresh failed", and no client call is made.  A `UserTokenProvider`
with an empty refresh token is such a provider: it calls back (false, "")
without contacting the refresh endpoint and keeps its state. -/
theorem handleTokenRefresh_failure {π : Type}
    (retry : World π → RequestContext → Option (World π)) (w : World π)
    (context : RequestContext) (P : TokenProvider π)
    (hprov : w.manager.tokenProvider_ = some P)
    (hfail : ¬ ((P.refreshAccessToken w.provider).1.1 = true ∧
      (P.refreshAccessToken w.provider).1.2 ≠ "")) :
    (∃ r : NetworkResponse,
      handleTokenRefresh retry w context =
        some { manager := w.manager, provider := (P.refreshAccessToken w.provider).2,
               trace := w.trace ++
                [.refresh (P.refreshAccessToken w.provider).1.1
                    (P.refreshAccessToken w.provider).1.2,
                  .callback r] } ∧
      r.statusCode = 403 ∧ r.success = false ∧ r.body = "" ∧
      (∃ rest : String, r.errorMessage = "Token refresh failed" ++ rest) ∧
      exchanges (w.trace ++
        [.refresh (P.refreshAccessToken w.provider).1.1 (P.refreshAccessToken w.provider).1.2,
          .callback r]) = exchanges w.trace) ∧
    ∀ (env : Env) (p : UserTokenProvider), p.refreshToken_ = "" →
      UserTokenProvider.refreshAccessToken env p = ((false, ""), p) := by
  constructor
  · refine ⟨refreshFailed "Token refresh failed", ?_, rfl, rfl, rfl, ⟨"", by decide⟩, ?_⟩
    · unfold handleTokenRefresh
      simp only [hprov]
      rw [if_neg hfail]
      simp [World.emit]
    · rw [exchanges_append]
      rfl
  · intro env p hp
    unfold UserTokenProvider.refreshAccessToken
    rw [if_pos hp]

theorem handleTokenRefresh_failure_witness :
    (∃ r : NetworkResponse,
      handleTokenRefresh (executeWithRetry (constantEnv 401) 3)
          ⟨userManager (constantEnv 401), loggedOutProvider, []⟩ getItems =
        some { manager := userManager (constantEnv 401), provider := loggedOutProvider,
               trace := [] ++ [.refresh false "", .callback r] } ∧
      r.statusCode = 403 ∧ r.success = false ∧ r.body = "" ∧
      (∃ rest : String, r.errorMessage = "Token refresh failed" ++ rest) ∧
      exchanges ([] ++ [.refresh false "", .callback r]) = exchanges []) ∧
    ∀ (env : Env) (p : UserTokenProvider), p.refreshToken_ = "" →
      UserTokenProvider.refreshAccessToken env p = ((false, ""), p) :=
  handleTokenRefresh_failure (executeWithRetry (constantEnv 401) 3)
    ⟨userManager (constantEnv 401), loggedOutProvider, []⟩ getItems
    (UserTokenProvider.asTokenProvider (constantEnv 401)) rfl (by decide)

/-! ## Error-message extraction -/

theorem Json.getKey_none_of_not_contains (j : Json) (field : String)
    (h : j.contains field = false) : j.getKey field = none := by
  cases j with
  | obj kvs =>
    simp only [Json.contains, Json.getKey] at h ⊢
    induction kvs with
    | nil => rfl
    | cons kv rest ih =>
      obtain ⟨k, v⟩ := kv
      simp only [List.any_cons, Bool.or_eq_false_iff, beq_eq_false_iff_ne, ne_eq] at h
      have hne : (field == k) = false := beq_eq_false_iff_ne.mpr (fun e => h.1 e.symm)
      simp only [List.lookup, hne]
      exact ih h.2
  | _ => rfl

theorem Json.contains_of_getKey (j : Json) (field : String) (v : Json)
    (h : j.getKey field = some v) : j.contains field = true := by
  cases hc : j.contains field with
  | true => rfl
  | false =>
    rw [Json.getKey_none_of_not_contains j field hc] at h
    cases h

/-- The loop of `parseErrorMessage` computes the spec's first non-empty string. -/
theorem scanErrorFields_eq (j : Json) (fields : List String) :
    scanErrorFields j fields = firstNonEmptyString j fields := by
  induction fields with
  | nil => rfl
  | cons f rest ih =>
    unfold firstNonEmptyString at ih ⊢
    simp only [scanErrorFields, List.filterMap_cons]
    cases hc : j.contains f with
    | false =>
      have hk := Json.getKey_none_of_not_contains j f hc
      simp only [nonEmptyStringAt, hk, Bool.false_eq_true, if_false]
      exact ih
    | true =>
      simp only [if_true, nonEmptyStringAt]
      cases hk : j.getKey f with
      | none => simpa using ih
      | some v =>
        cases v with
        | str s =>
          by_cases hs : s = ""
          · simpa [hs] using ih
          · simp [hs]
        | _ => simpa using ih

/-- The function `parseErrorMessage` returns the spec's recognizable error
field, or the default message when there is none. -/
theorem parseErrorMessage_eq (j : Json) (defaultMsg : String) :
    parseErrorMessage j defaultMsg = (recognizedError j).getD defaultMsg := by
  unfold parseErrorMessage recognizedError
  rw [scanErrorFields_eq]
  simp only [topLevelErrorFields]
  cases h1 : firstNonEmptyString j ["error", "message", "detail", "error_description", "msg"] with
  | some msg => rfl
  | none =>
    simp only
    cases hc : j.contains "error" with
    | false =>
      rw [Json.getKey_none_of_not_contains j "error" hc]
      rfl
    | true =>
      simp only [if_true]
      cases hk : j.getKey "error" with
      | none => rfl
      | some v =>
        cases v with
        | obj sub =>
          simp only [scanErrorFields_eq, nestedErrorFields]
          cases firstNonEmptyString (Json.obj sub) ["message", "detail", "description"] <;> rfl
        | _ => rfl

/-- The message of a failed response whose non-empty body parses. -/
theorem processResponse_errorMessage_parsed (env : Env) (r : HttpResponse) (j : Json)
    (hfail : ¬ (r.status ≥ 200 ∧ r.status < 300)) (hbody : r.body ≠ "")
    (hparse : env.json_parse r.body = some j) :
    (processResponse env (some r)).errorMessage =
      (recognizedError j).getD (HttpError.getMessage r.status) := by
  unfold processResponse
  simp [hfail, hbody, hparse, parseErrorMessage_eq]

/-- The message of a failed response whose body is empty or does not parse. -/
theorem processResponse_errorMessage_table (env : Env) (r : HttpResponse)
    (hfail : ¬ (r.status ≥ 200 ∧ r.status < 300))
    (hbody : r.body = "" ∨ env.json_parse r.body = none) :
    (processResponse env (some r)).errorMessage = HttpError.getMessage r.status := by
  unfold processResponse
  by_cases hb : r.body = ""
  · simp [hfail, hb]
  · rcases hbody with h | h
    · exact absurd h hb
    · simp [hfail, hb, h]

/-- C11: when the body of a failed response parses to a JSON object in which
one of the top-level fields error, message, detail, error_description, msg
holds a non-empty string, the outcome's errorMessage is the value of the first
such field in that order (absent, non-string and empty fields are skipped),
whatever a nested error object holds. -/
theorem errorMessage_top_level (env : Env) (r : HttpResponse) (kvs : List (String × Json))
    (msg : String)
    (hfail : ¬ (r.status ≥ 200 ∧ r.status < 300)) (hbody : r.body ≠ "")
    (hparse : env.json_parse r.body = some (.obj kvs))
    (hfirst : firstNonEmptyString (.obj kvs) topLevelErrorFields = some msg) :
    (processResponse env (some r)).errorMessage = msg := by
  rw [processResponse_errorMessage_parsed env r _ hfail hbody hparse]
  simp only [recognizedError, hfirst, Option.getD_some]

theorem errorMessage_top_level_witness :
    (processResponse (parsedEnv 400 (some quotaJson))
      (some { status := 400, body := "body", headers := [] })).errorMessage =
        "Quota exceeded" :=
  errorMessage_top_level (parsedEnv 400 (some quotaJson))
    { status := 400, body := "body", headers := [] } _ "Quota exceeded"
    (by decide) (by decide) rfl (by decide)

/-- C12: when the body of a failed response parses to a JSON object with no
non-empty top-level string among error, message, detail, error_description,
msg, and its field error is an object, the outcome's errorMessage is the first
non-empty string among that object's sub-fields message, detail, description;
the body {"error":{"message":"Bad password"}} with status 401 yields
"Bad password". -/
theorem errorMessage_nested (env : Env) (r : HttpResponse) (kvs sub : List (String × Json))
    (msg : String)
    (hfail : ¬ (r.status ≥ 200 ∧ r.status < 300)) (hbody : r.body ≠ "")
    (hparse : env.json_parse r.body = some (.obj kvs))
    (htop : firstNonEmptyString (.obj kvs) topLevelErrorFields = none)
    (herror : (Json.obj kvs).getKey "error" = some (.obj sub))
    (hnested : firstNonEmptyString (.obj sub) nestedErrorFields = some msg) :
    (processResponse env (some r)).errorMessage = msg ∧
      ∀ (env1 : Env) (r1 : HttpResponse), r1.status = 401 → r1.body ≠ "" →
        env1.json_parse r1.body = some badPasswordJson →
        (processResponse env1 (some r1)).errorMessage = "Bad password" := by
  constructor
  · rw [processResponse_errorMessage_parsed env r _ hfail hbody hparse]
    simp only [recognizedError, htop, herror, hnested, Option.getD_some]
  · intro env1 r1 hs hb hp
    rw [processResponse_errorMessage_parsed env1 r1 _ (by omega) hb hp]
    have hrec : recognizedError badPasswordJson = some "Bad password" := by decide
    rw [hrec]
    rfl

theorem errorMessage_nested_witness :
    (processResponse (parsedEnv 401 (some badPasswordJson))
        (some { status := 401, body := "body", headers := [] })).errorMessage =
          "Bad password" ∧
      ∀ (env1 : Env) (r1 : HttpResponse), r1.status = 401 → r1.body ≠ "" →
        env1.json_parse r1.body = some badPasswordJson →
        (processResponse env1 (some r1)).errorMessage = "Bad password" :=
  errorMessage_nested (parsedEnv 401 (some badPasswordJson))
    { status := 401, body := "body", headers := [] }
    [("error", .obj [("message", .str "Bad password")])] [("message", .str "Bad password")]
    "Bad password" (by decide) (by decide) rfl (by decide) rfl (by decide)

/-- C13: for a failed response whose body is empty, does not parse, parses to
a value that is not an object, or parses to an object without a recognizable
non-empty error field (top-level or nested), the outcome's errorMessage is
`HttpError::getMessage(status)`; the body {} with status 401 yields
"Invalid credentials".  The function returns an outcome in each of these
cases: nothing propagates. -/
theorem errorMessage_falls_back (env : Env) (r : HttpResponse)
    (hfail : ¬ (r.status ≥ 200 ∧ r.status < 300))
    (hbody : r.body = "" ∨ env.json_parse r.body = none ∨
      ∃ j, env.json_parse r.body = some j ∧ (j.is_object = false ∨ recognizedError j = none)) :
    (processResponse env (some r)).errorMessage = HttpError.getMessage r.status ∧
      ∀ (env1 : Env) (r1 : HttpResponse), r1.status = 401 →
        env1.json_parse r1.body = some (.obj []) →
        (processResponse env1 (some r1)).errorMessage = "Invalid credentials" := by
  have hnot : ∀ j : Json, j.is_object = false → recognizedError j = none := by
    intro j hj
    cases j <;> first | rfl | cases hj
  constructor
  · rcases hbody with h | h | ⟨j, hp, hj⟩
    · exact processResponse_errorMessage_table env r hfail (Or.inl h)
    · exact processResponse_errorMessage_table env r hfail (Or.inr h)
    · by_cases hb : r.body = ""
      · exact processResponse_errorMessage_table env r hfail (Or.inl hb)
      · rw [processResponse_errorMessage_parsed env r j hfail hb hp]
        rcases hj with hj | hj
        · rw [hnot j hj]; rfl
        · rw [hj]; rfl
  · intro env1 r1 hs hp
    by_cases hb : r1.body = ""
    · rw [processResponse_errorMessage_table env1 r1 (by omega) (Or.inl hb), hs]
      rfl
    · rw [processResponse_errorMessage_parsed env1 r1 _ (by omega) hb hp, hs]
      rfl

theorem errorMessage_falls_back_witness :
    (processResponse (parsedEnv 401 (some (.obj [])))
        (some { status := 401, body := "body", headers := [] })).errorMessage =
          HttpError.getMessage 401 ∧
      ∀ (env1 : Env) (r1 : HttpResponse), r1.status = 401 →
        env1.json_parse r1.body = some (.obj []) →
        (processResponse env1 (some r1)).errorMessage = "Invalid credentials" :=
  errorMessage_falls_back (parsedEnv 401 (some (.obj [])))
    { status := 401, body := "body", headers := [] } (by decide)
    (Or.inr (Or.inr ⟨.obj [], rfl, Or.inr (by decide)⟩))

/-! ## Headers -/

theorem injectAuthToken_eq {π : Type} (m : NetworkManager π) (p : π) (headers : Headers) :
    injectAuthToken m p headers =
      if currentToken m p ≠ "" then
        headers.filter (fun h => h.1 ≠ "Authorization") ++
          [("Authorization", "Bearer " ++ currentToken m p)]
      else headers := rfl

theorem authorizationEntries_append (a b : Headers) :
    authorizationEntries (a ++ b) = authorizationEntries a ++ authorizationEntries b := by
  simp [authorizationEntries]

theorem authorizationEntries_injected {π : Type} (m : NetworkManager π) (p : π)
    (headers : Headers) (htoken : currentToken m p ≠ "") :
    authorizationEntries (injectAuthToken m p headers) =
      [("Authorization", "Bearer " ++ currentToken m p)] := by
  rw [injectAuthToken_eq, if_pos htoken, authorizationEntries_append]
  have h1 : authorizationEntries (headers.filter (fun h => h.1 ≠ "Authorization")) = [] := by
    simp [authorizationEntries, List.filter_filter]
  rw [h1]
  simp [authorizationEntries]

/-- C16, as the code has it: when the current access token is empty,
`injectAuthToken` returns the headers it was given, removing nothing.  On a
constructed manager without interceptor the dispatched Authorization entries
are those of the default headers followed by those of the per-request
headers, so none is sent exactly when neither holds one. -/
theorem authorization_when_no_token {π : Type} (env : Env) (w : World π)
    (context : RequestContext)
    (hI : Initialized w.manager) (hK : KnownMethod context.method)
    (hnone : w.manager.requestInterceptor_ = none)
    (htoken : currentToken w.manager w.provider = "") :
    injectAuthToken w.manager w.provider context.headers = context.headers ∧
      ∃ d : Dispatch,
        executeRequest env w context =
          (processResponse env (env.transport (exchanges w.trace) d), w.emit (.exchange d)) ∧
        d.headers = w.manager.config_.defaultHeaders ++ context.headers ∧
        authorizationEntries d.headers =
          authorizationEntries w.manager.config_.defaultHeaders ++
            authorizationEntries context.headers := by
  have hinj : injectAuthToken w.manager w.provider context.headers = context.headers := by
    rw [injectAuthToken_eq, if_neg (by simpa using htoken)]
  refine ⟨hinj, ?_⟩
  obtain ⟨d, hd, hh⟩ := executeRequest_known env w context hI hK
  have hd2 : d.headers = w.manager.config_.defaultHeaders ++ context.headers := by
    rw [hh, hnone, mergeHeaders_eq, hinj]
  exact ⟨d, hd, hd2, by rw [hd2, authorizationEntries_append]⟩

theorem authorization_when_no_token_witness :
    injectAuthToken (plainManager 3) () getItemsBasic.headers = getItemsBasic.headers ∧
      ∃ d : Dispatch,
        executeRequest (constantEnv 200) ⟨plainManager 3, (), []⟩ getItemsBasic =
          (processResponse (constantEnv 200) ((constantEnv 200).transport (exchanges []) d),
            (World.mk (plainManager 3) () []).emit (.exchange d)) ∧
        d.headers = (plainManager 3).config_.defaultHeaders ++ getItemsBasic.headers ∧
        authorizationEntries d.headers =
          authorizationEntries (plainManager 3).config_.defaultHeaders ++
            authorizationEntries getItemsBasic.headers :=
  authorization_when_no_token (constantEnv 200) ⟨plainManager 3, (), []⟩ getItemsBasic
    ⟨rfl, rfl⟩ (Or.inl rfl) rfl rfl

/-- C16, as the spec states it, fails: with no access token, a per-request
header Authorization: Basic abc is not removed and reaches the client. -/
theorem authorization_not_removed_example :
    currentToken (plainManager 3) () = "" ∧
      (executeRequest (constantEnv 200) ⟨plainManager 3, (), []⟩ getItemsBasic).2.trace =
        [.exchange
          { secure := true, method := "GET", path := "/items",
            headers := [("Authorization", "Basic abc")], payload := .none }] := by
  constructor <;> decide

/-! ## Login and logout -/

/-- C17 fails on the code: `logout` clears `userData` only.  After a
successful login (access token "A", refresh token "R") and a logout, the user
data holds no token, but the token provider and the network manager still
hold "A" and "R", and the next `get` is sent with Authorization: Bearer A.
In general `logout` leaves manager, provider and trace untouched (so it makes
no network call). -/
theorem logout_keeps_provider_tokens :
    loggedOutAfterLogin.map
        (fun px => (px.userData.accessToken, px.userData.refreshToken,
          px.world.provider.accessToken_, px.world.provider.refreshToken_,
          px.world.manager.accessToken_, px.world.manager.refreshToken_)) =
        some ("", "", "A", "R", "A", "R") ∧
      (loggedOutAfterLogin.bind
          (fun px => NetworkManager.get loginEnv 4 px.world "/items")).map
        (fun w => (w.trace.drop 2).head?) =
        some (some (.exchange
          { secure := true, method := "GET", path := "/items",
            headers := [("Content-Type", "application/json"), ("Authorization", "Bearer A"),
              ("X-Request-Time", "0")],
            payload := .none })) ∧
      ∀ px : UserProxy, (UserProxy.logout px).world = px.world := by
  refine ⟨?_, ?_, fun _ => rfl⟩
  · decide
  · decide

/-! ## Invariants -/

theorem append_ne_empty (a b : String) (ha : a ≠ "") : a ++ b ≠ "" := by
  intro h
  have hl := congrArg String.length h
  rw [String.length_append] at hl
  have ha0 : a.length ≠ 0 := by
    intro h0
    apply ha
    cases a with
    | mk data =>
      cases data with
      | nil => rfl
      | cons c cs => simp [String.length] at h0
  have he : ("" : String).length = 0 := rfl
  omega

theorem HttpError.getMessage_ne_empty (statusCode : Int) :
    HttpError.getMessage statusCode ≠ "" := by
  by_cases h0 : statusCode = 400
  · subst h0; decide
  by_cases h1 : statusCode = 401
  · subst h1; decide
  by_cases h3 : statusCode = 403
  · subst h3; decide
  by_cases h4 : statusCode = 404
  · subst h4; decide
  by_cases h9 : statusCode = 429
  · subst h9; decide
  by_cases h5 : statusCode = 500
  · subst h5; decide
  have e0 : (statusCode == 400) = false := beq_eq_false_iff_ne.mpr h0
  have e1 : (statusCode == 401) = false := beq_eq_false_iff_ne.mpr h1
  have e3 : (statusCode == 403) = false := beq_eq_false_iff_ne.mpr h3
  have e4 : (statusCode == 404) = false := beq_eq_false_iff_ne.mpr h4
  have e9 : (statusCode == 429) = false := beq_eq_false_iff_ne.mpr h9
  have e5 : (statusCode == 500) = false := beq_eq_false_iff_ne.mpr h5
  simp only [HttpError.getMessage, HttpError.statusMessages, List.lookup, e0, e1, e3, e4, e9,
    e5]
  exact append_ne_empty _ _ (by decide)

theorem firstNonEmptyString_ne_empty (j : Json) (fields : List String) (msg : String)
    (h : firstNonEmptyString j fields = some msg) : msg ≠ "" := by
  unfold firstNonEmptyString at h
  have hmem : msg ∈ fields.filterMap (nonEmptyStringAt j) := List.mem_of_mem_head? h
  obtain ⟨f, -, hf⟩ := List.mem_filterMap.mp hmem
  unfold nonEmptyStringAt at hf
  cases hk : j.getKey f with
  | none => simp [hk] at hf
  | some v =>
    cases v with
    | str s =>
      by_cases hs : s = ""
      · simp [hk, hs] at hf
      · simp [hk, hs] at hf
        rw [← hf]
        exact hs
    | _ => simp [hk] at hf

theorem recognizedError_ne_empty (j : Json) (msg : String)
    (h : recognizedError j = some msg) : msg ≠ "" := by
  unfold recognizedError at h
  cases h1 : firstNonEmptyString j topLevelErrorFields with
  | some m =>
    rw [h1] at h
    simp only [Option.some.injEq] at h
    rw [← h]
    exact firstNonEmptyString_ne_empty j _ m h1
  | none =>
    rw [h1] at h
    simp only at h
    cases hk : j.getKey "error" with
    | none => simp [hk] at h
    | some v =>
      cases v with
      | obj sub =>
        simp only [hk] at h
        exact firstNonEmptyString_ne_empty _ _ msg h
      | _ => simp [hk] at h

theorem processResponse_errorMessage_success (env : Env) (r : HttpResponse)
    (hs : r.status ≥ 200 ∧ r.status < 300) :
    (processResponse env (some r)).errorMessage = "" := by
  unfold processResponse
  simp [hs]

theorem processResponse_invariant (env : Env) (res : Option HttpResponse) :
    OutcomeInvariant (processResponse env res) := by
  cases res with
  | none =>
    refine ⟨?_, ?_⟩
    · simp [processResponse, NetworkResponse.default]
    · simp only [processResponse, NetworkResponse.default]
      decide
  | some r =>
    unfold OutcomeInvariant
    rw [processResponse_some_success, processResponse_some_statusCode]
    by_cases hs : r.status ≥ 200 ∧ r.status < 300
    · rw [processResponse_errorMessage_success env r hs]
      simp [hs]
    · have hmsg : (processResponse env (some r)).errorMessage ≠ "" := by
        by_cases hb : r.body = ""
        · rw [processResponse_errorMessage_table env r hs (Or.inl hb)]
          exact HttpError.getMessage_ne_empty _
        · cases hp : env.json_parse r.body with
          | none =>
            rw [processResponse_errorMessage_table env r hs (Or.inr hp)]
            exact HttpError.getMessage_ne_empty _
          | some j =>
            rw [processResponse_errorMessage_parsed env r j hs hb hp]
            cases hrec : recognizedError j with
            | none => exact HttpError.getMessage_ne_empty _
            | some m => exact recognizedError_ne_empty j m hrec
      simp [hs, hmsg]

theorem clientNotInitialized_invariant : OutcomeInvariant clientNotInitialized := by
  refine ⟨?_, ?_⟩
  · simp [clientNotInitialized, NetworkResponse.default]
  · simp only [clientNotInitialized, NetworkResponse.default]
    decide

theorem unknownMethod_invariant : OutcomeInvariant unknownMethod := by
  refine ⟨?_, ?_⟩
  · simp [unknownMethod]
  · simp only [unknownMethod]
    decide

theorem refreshFailed_invariant (errorMessage : String) (h : errorMessage ≠ "") :
    OutcomeInvariant (refreshFailed errorMessage) := by
  refine ⟨?_, ?_⟩
  · simp [refreshFailed]
  · simp [refreshFailed, h]

/-- The response of `executeRequest` is a classified result, the
client-not-initialized response or the unknown-method response. -/
theorem executeRequest_outcome {π : Type} (env : Env) (w : World π) (context : RequestContext) :
    (∃ res, (executeRequest env w context).1 = processResponse env res) ∨
      (executeRequest env w context).1 = clientNotInitialized ∨
      (executeRequest env w context).1 = unknownMethod := by
  unfold executeRequest
  simp only [doGet, doPost, doPostMultipart, doPut, doDelete, doPatch]
  repeat' split
  all_goals first
    | exact Or.inr (Or.inl rfl)
    | exact Or.inr (Or.inr rfl)
    | exact Or.inl ⟨_, rfl⟩

theorem executeRequest_invariant {π : Type} (env : Env) (w : World π)
    (context : RequestContext) : OutcomeInvariant (executeRequest env w context).1 := by
  rcases executeRequest_outcome env w context with ⟨res, h⟩ | h | h
  · rw [h]; exact processResponse_invariant env res
  · rw [h]; exact clientNotInitialized_invariant
  · rw [h]; exact unknownMethod_invariant

/-- Whatever a finished chain delivers satisfies the outcome invariant. -/
theorem executeWithRetry_delivers_invariant {π : Type} (env : Env) (fuel : Nat) :
    ∀ (w : World π) (context : RequestContext) (w1 : World π),
      executeWithRetry env fuel w context = some w1 →
      ∃ (pre : List Event) (r : NetworkResponse),
        w1.trace = pre ++ [.callback r] ∧ OutcomeInvariant r := by
  induction fuel with
  | zero =>
    intro w context w1 h
    simp [executeWithRetry] at h
  | succ n ih =>
    intro w context w1 h
    rw [executeWithRetry_succ] at h
    have hinv := executeRequest_invariant env w context
    generalize executeRequest env w context = out at h hinv
    obtain ⟨response, w0⟩ := out
    simp only at h hinv
    split at h
    · split at h
      · unfold handleTokenRefresh at h
        simp only at h
        split at h
        · simp only [Option.some.injEq] at h
          subst h
          exact ⟨_, _, rfl, refreshFailed_invariant _ (by decide)⟩
        · split at h
          · exact ih _ _ _ h
          · simp only [Option.some.injEq] at h
            subst h
            exact ⟨_, _, rfl, refreshFailed_invariant _ (by decide)⟩
      · exact ih _ _ _ h
    · simp only [Option.some.injEq] at h
      subst h
      exact ⟨_, _, rfl, hinv⟩

/-- C18: every outcome the executor can deliver satisfies the invariant
"success iff statusCode in [200, 300), errorMessage non-empty iff not
success": classified responses and transport failures (`processResponse`),
the unknown-method and client-not-initialized responses, the two synthetic
refresh failures, and so the outcome a finished chain hands to the callback. -/
theorem outcome_invariant {π : Type} (env : Env) (fuel : Nat) (w : World π)
    (context : RequestContext)
    (hfuel : (w.manager.config_.maxRetries - context.retryCount).toNat + 1 ≤ fuel) :
    (∀ res : Option HttpResponse, OutcomeInvariant (processResponse env res)) ∧
      OutcomeInvariant unknownMethod ∧
      OutcomeInvariant clientNotInitialized ∧
      OutcomeInvariant (refreshFailed "Token refresh failed") ∧
      OutcomeInvariant (refreshFailed "Token refresh failed: No token provider") ∧
      OutcomeInvariant (executeRequest env w context).1 ∧
      ∃ (w1 : World π) (pre : List Event) (r : NetworkResponse),
        executeWithRetry env fuel w context = some w1 ∧
        w1.trace = pre ++ [.callback r] ∧ OutcomeInvariant r := by
  refine ⟨processResponse_invariant env, unknownMethod_invariant,
    clientNotInitialized_invariant, refreshFailed_invariant _ (by decide),
    refreshFailed_invariant _ (by decide), executeRequest_invariant env w context, ?_⟩
  obtain ⟨w1, mid, r, hrun, -, -⟩ := executeWithRetry_summary env fuel w context hfuel
  obtain ⟨pre, r1, htr, hinv⟩ := executeWithRetry_delivers_invariant env fuel w context w1 hrun
  exact ⟨w1, pre, r1, hrun, htr, hinv⟩

theorem outcome_invariant_witness :
    (∀ res : Option HttpResponse, OutcomeInvariant (processResponse (constantEnv 401) res)) ∧
      OutcomeInvariant unknownMethod ∧
      OutcomeInvariant clientNotInitialized ∧
      OutcomeInvariant (refreshFailed "Token refresh failed") ∧
      OutcomeInvariant (refreshFailed "Token refresh failed: No token provider") ∧
      OutcomeInvariant
        (executeRequest (constantEnv 401) ⟨freshManager 3, (), []⟩ getItems).1 ∧
      ∃ (w1 : World Unit) (pre : List Event) (r : NetworkResponse),
        executeWithRetry (constantEnv 401) 4 ⟨freshManager 3, (), []⟩ getItems = some w1 ∧
        w1.trace = pre ++ [.callback r] ∧ OutcomeInvariant r :=
  outcome_invariant (constantEnv 401) 4 ⟨freshManager 3, (), []⟩ getItems (by decide)

/-- One step of a chain: either the chain ends with this attempt, or it goes
on as a new attempt of the same request whose `retryCount` is one higher and
still within `maxRetries`. -/
theorem executeWithRetry_step {π : Type} (env : Env) (fuel : Nat) (w : World π)
    (context : RequestContext) :
    (∃ w1, executeWithRetry env (fuel + 1) w context = some w1 ∧
        exchanges w1.trace ≤ exchanges w.trace + 1) ∨
      ∃ w2 : World π,
        executeWithRetry env (fuel + 1) w context =
          executeWithRetry env fuel w2 { context with retryCount := context.retryCount + 1 } ∧
        w2.manager.config_ = w.manager.config_ ∧
        context.retryCount + 1 ≤ w2.manager.config_.maxRetries ∧
        exchanges w2.trace ≤ exchanges w.trace + 1 := by
  rw [executeWithRetry_succ]
  obtain ⟨ex, hex, hshape⟩ := executeRequest_step env w context
  have hxc : exchanges ex ≤ 1 := by
    rcases hshape with h | ⟨d, h⟩ <;> subst h <;> simp [exchanges]
  generalize executeRequest env w context = out at hex ⊢
  obtain ⟨response, w0⟩ := out
  simp only at hex ⊢
  subst hex
  split
  · rename_i hretry
    have hlt := shouldRetry_lt _ _ _ hretry.2
    simp only at hlt
    split
    · unfold handleTokenRefresh
      simp only
      split
      · refine Or.inl ⟨_, rfl, ?_⟩
        simp only [World.emit, exchanges_append]
        have : exchanges [Event.callback
          (refreshFailed "Token refresh failed: No token provider")] = 0 := rfl
        omega
      · rename_i P hP
        split
        · refine Or.inr ⟨_, rfl, rfl, ?_, ?_⟩
          · simp only [NetworkManager.setAccessToken]
            omega
          · simp only [exchanges_append]
            have : exchanges [Event.refresh (P.refreshAccessToken w.provider).1.1
              (P.refreshAccessToken w.provider).1.2] = 0 := rfl
            omega
        · refine Or.inl ⟨_, rfl, ?_⟩
          simp only [World.emit, exchanges_append]
          have h1 : exchanges [Event.refresh (P.refreshAccessToken w.provider).1.1
            (P.refreshAccessToken w.provider).1.2] = 0 := rfl
          have h2 : exchanges [Event.callback (refreshFailed "Token refresh failed")] = 0 := rfl
          omega
    · refine Or.inr ⟨_, rfl, rfl, ?_, ?_⟩
      · simp only [World.emit]
        omega
      · simp only [World.emit, exchanges_append]
        have : exchanges [Event.sleep w.manager.config_.retryDelayMs] = 0 := rfl
        omega
  · refine Or.inl ⟨_, rfl, ?_⟩
    simp only [World.emit, exchanges_append]
    have : exchanges [Event.callback response] = 0 := rfl
    omega

/-- C19: for every transport and provider behaviour, an attempt that starts
with retryCount <= maxRetries (as the first one does: retryCount = 0 and
maxRetries >= 0) either ends the chain or is followed by an attempt whose
retryCount is exactly one higher and again <= maxRetries, whether it is
reached by the delayed retry or by a refresh; and a chain makes at most
maxRetries - retryCount + 1 client calls, that is maxRetries + 1 from
retryCount = 0. -/
theorem retryCount_within_maxRetries {π : Type} (env : Env) (fuel : Nat) (w : World π)
    (context : RequestContext)
    (hle : context.retryCount ≤ w.manager.config_.maxRetries)
    (hfuel : (w.manager.config_.maxRetries - context.retryCount).toNat ≤ fuel) :
    ((∃ w1, executeWithRetry env (fuel + 1) w context = some w1 ∧
        exchanges w1.trace ≤ exchanges w.trace + 1) ∨
      ∃ w2 : World π,
        executeWithRetry env (fuel + 1) w context =
          executeWithRetry env fuel w2 { context with retryCount := context.retryCount + 1 } ∧
        w2.manager.config_ = w.manager.config_ ∧
        context.retryCount + 1 ≤ w2.manager.config_.maxRetries ∧
        exchanges w2.trace ≤ exchanges w.trace + 1) ∧
      ∃ (w1 : World π) (mid : List Event) (r : NetworkResponse),
        executeWithRetry env (fuel + 1) w context = some w1 ∧
        w1.trace = w.trace ++ mid ++ [.callback r] ∧
        (exchanges mid : Int) ≤ w.manager.config_.maxRetries - context.retryCount + 1 := by
  refine ⟨executeWithRetry_step env fuel w context, ?_⟩
  obtain ⟨w1, mid, r, hrun, htr, -, -, hx⟩ :=
    executeWithRetry_summary env (fuel + 1) w context (by omega)
  exact ⟨w1, mid, r, hrun, htr, by omega⟩

theorem retryCount_within_maxRetries_witness :
    ((∃ w1, executeWithRetry (constantEnv 401) (3 + 1) ⟨freshManager 3, (), []⟩ getItems =
          some w1 ∧
        exchanges w1.trace ≤ exchanges [] + 1) ∨
      ∃ w2 : World Unit,
        executeWithRetry (constantEnv 401) (3 + 1) ⟨freshManager 3, (), []⟩ getItems =
          executeWithRetry (constantEnv 401) 3 w2
            { getItems with retryCount := getItems.retryCount + 1 } ∧
        w2.manager.config_ = (freshManager 3).config_ ∧
        getItems.retryCount + 1 ≤ w2.manager.config_.maxRetries ∧
        exchanges w2.trace ≤ exchanges [] + 1) ∧
      ∃ (w1 : World Unit) (mid : List Event) (r : NetworkResponse),
        executeWithRetry (constantEnv 401) (3 + 1) ⟨freshManager 3, (), []⟩ getItems =
          some w1 ∧
        w1.trace = [] ++ mid ++ [.callback r] ∧
        (exchanges mid : Int) ≤ (freshManager 3).config_.maxRetries - getItems.retryCount + 1 :=
  retryCount_within_maxRetries (constantEnv 401) 3 ⟨freshManager 3, (), []⟩ getItems
    (by decide) (by decide)

/-! ## Body and multipart policy -/

/-- What `executeRequest` hands to the client for the methods that carry a
body: a POST whose multipart parts are not empty goes out with the multipart
parts, a POST without multipart parts with its raw body and content type, and
a PUT or a PATCH with its raw body and content type. -/
theorem executeRequest_payload {π : Type} (env : Env) (w : World π)
    (context : RequestContext) (hI : Initialized w.manager) :
    (context.method = "POST" → context.multipartItems ≠ [] →
      ∃ d : Dispatch,
        executeRequest env w context =
          (processResponse env (env.transport (exchanges w.trace) d), w.emit (.exchange d)) ∧
        d.method = "POST" ∧ d.path = context.path ∧
        d.payload = .multipart context.multipartItems) ∧
    (context.method = "POST" → context.multipartItems = [] →
      ∃ d : Dispatch,
        executeRequest env w context =
          (processResponse env (env.transport (exchanges w.trace) d), w.emit (.exchange d)) ∧
        d.method = "POST" ∧ d.path = context.path ∧
        d.payload = .raw context.body context.contentType) ∧
    (context.method = "PUT" ∨ context.method = "PATCH" →
      ∃ d : Dispatch,
        executeRequest env w context =
          (processResponse env (env.transport (exchanges w.trace) d), w.emit (.exchange d)) ∧
        d.method = context.method ∧ d.path = context.path ∧
        d.payload = .raw context.body context.contentType) := by
  have hc : (!w.manager.sslClient_ && !w.manager.httpClient_) = false := by
    obtain ⟨h1, h2⟩ := hI
    cases hu : w.manager.config_.useSSL <;> simp [hu, h1, h2]
  refine ⟨?_, ?_, ?_⟩
  · intro h hm
    refine ⟨Dispatch.mk w.manager.config_.useSSL "POST" context.path
      (mergeHeaders w.manager
        (match w.manager.requestInterceptor_ with
          | some interceptor =>
            interceptor (injectAuthToken w.manager w.provider context.headers)
          | none => injectAuthToken w.manager w.provider context.headers))
      (.multipart context.multipartItems), ?_, rfl, rfl, rfl⟩
    simp [executeRequest, mergeHeaders, h, hm, doPostMultipart, hc,
      clientCall_initialized env w _ hI]
  · intro h hm
    refine ⟨Dispatch.mk w.manager.config_.useSSL "POST" context.path
      (mergeHeaders w.manager
        (match w.manager.requestInterceptor_ with
          | some interceptor =>
            interceptor (injectAuthToken w.manager w.provider context.headers)
          | none => injectAuthToken w.manager w.provider context.headers))
      (.raw context.body context.contentType), ?_, rfl, rfl, rfl⟩
    simp [executeRequest, mergeHeaders, h, hm, doPost, hc, clientCall_initialized env w _ hI]
  · rintro (h | h)
    · refine ⟨Dispatch.mk w.manager.config_.useSSL "PUT" context.path
        (mergeHeaders w.manager
          (match w.manager.requestInterceptor_ with
            | some interceptor =>
              interceptor (injectAuthToken w.manager w.provider context.headers)
            | none => injectAuthToken w.manager w.provider context.headers))
        (.raw context.body context.contentType), ?_, h.symm, rfl, rfl⟩
      simp [executeRequest, mergeHeaders, h, doPut, hc, clientCall_initialized env w _ hI]
    · refine ⟨Dispatch.mk w.manager.config_.useSSL "PATCH" context.path
        (mergeHeaders w.manager
          (match w.manager.requestInterceptor_ with
            | some interceptor =>
              interceptor (injectAuthToken w.manager w.provider context.headers)
            | none => injectAuthToken w.manager w.provider context.headers))
        (.raw context.body context.contentType), ?_, h.symm, rfl, rfl⟩
      simp [executeRequest, mergeHeaders, h, doPatch, hc, clientCall_initialized env w _ hI]

/-! ## Plain retries and transport failures -/

theorem sleeps_append (a b : List Event) : sleeps (a ++ b) = sleeps a + sleeps b := by
  simp [sleeps, List.countP_append]

/-- The plain chain once more, with its shape: as many rounds of "client call,
delay" as the retry budget allows, then one last client call whose classified
response is delivered. -/
theorem executeWithRetry_plain_chain_last {π : Type} (env : Env) (s : Int)
    (hT : ∀ n d, ∃ r, env.transport n d = some r ∧ r.status = s)
    (hs : ¬ (s ≥ 200 ∧ s < 300)) (fuel : Nat) :
    ∀ (w : World π) (context : RequestContext),
      Initialized w.manager → KnownMethod context.method →
      s ∈ w.manager.config_.retryOnStatusCodes →
      ¬ (w.manager.autoRefreshToken_ = true ∧ w.manager.tokenProvider_.isSome = true ∧
          (s = 401 ∨ s = 403)) →
      context.retryCount ≤ w.manager.config_.maxRetries →
      (w.manager.config_.maxRetries - context.retryCount).toNat + 1 ≤ fuel →
      ∃ (w1 : World π) (mid : List Event) (d : Dispatch) (r : NetworkResponse),
        executeWithRetry env fuel w context = some w1 ∧
        w1.trace = w.trace ++ mid ++ [.exchange d, .callback r] ∧
        callbacks mid = 0 ∧ refreshes mid = 0 ∧
        exchanges mid = (w.manager.config_.maxRetries - context.retryCount).toNat ∧
        sleeps mid = (w.manager.config_.maxRetries - context.retryCount).toNat ∧
        r = processResponse env (env.transport (exchanges (w.trace ++ mid)) d) ∧
        r.success = false ∧ r.statusCode = s := by
  induction fuel with
  | zero =>
    intro w context _ _ _ _ _ h
    omega
  | succ n ih =>
    intro w context hI hK hmem hnr hle hfuel
    obtain ⟨d, hd, -⟩ := executeRequest_known env w context hI hK
    obtain ⟨r0, hr0, hst⟩ := hT (exchanges w.trace) d
    have hsucc : (processResponse env (some r0)).success = false := by
      rw [processResponse_some_success, hst]
      simpa using hs
    have hcode : (processResponse env (some r0)).statusCode = s := by
      rw [processResponse_some_statusCode, hst]
    rw [executeWithRetry_succ, hd, hr0]
    simp only [World.emit, hsucc, hcode, true_and]
    by_cases hlt : context.retryCount < w.manager.config_.maxRetries
    · rw [if_pos (shouldRetry_of_lt _ _ _ hlt hmem), if_neg hnr]
      obtain ⟨w1, mid, d1, r, hrun, htr, hc, hr, hx, hsl, hlast, hrs, hrc⟩ :=
        ih { manager := w.manager, provider := w.provider,
             trace := w.trace ++ [.exchange d] ++ [.sleep w.manager.config_.retryDelayMs] }
          { context with retryCount := context.retryCount + 1 } hI hK hmem hnr
          (by simp only; omega) (by simp only; omega)
      simp only at hx htr hsl hlast
      refine ⟨w1, [.exchange d] ++ [.sleep w.manager.config_.retryDelayMs] ++ mid, d1, r, hrun,
        ?_, ?_, ?_, ?_, ?_, ?_, hrs, hrc⟩
      · rw [htr]; simp
      · simp only [callbacks_append, hc]; rfl
      · simp only [refreshes_append, hr]; rfl
      · simp only [exchanges_append, hx]
        have h1 : exchanges [Event.exchange d] = 1 := rfl
        have h2 : exchanges [Event.sleep w.manager.config_.retryDelayMs] = 0 := rfl
        omega
      · simp only [sleeps_append, hsl]
        have h1 : sleeps [Event.exchange d] = 0 := rfl
        have h2 : sleeps [Event.sleep w.manager.config_.retryDelayMs] = 1 := rfl
        omega
      · rw [hlast]
        simp only [List.append_assoc]
    · have hge : context.retryCount ≥ w.manager.config_.maxRetries := by omega
      have hno : ¬ (w.manager.shouldRetry s context.retryCount = true) := by
        rw [shouldRetry_of_ge _ _ _ hge]
        simp
      rw [if_neg hno]
      refine ⟨_, [], d, _, rfl, by simp, rfl, rfl, ?_, ?_, by simp [hr0], hsucc, hcode⟩
      · have h1 : exchanges ([] : List Event) = 0 := rfl
        omega
      · have h1 : sleeps ([] : List Event) = 0 := rfl
        omega

theorem processResponse_some_body (env : Env) (r : HttpResponse) :
    (processResponse env (some r)).body = r.body := by
  unfold processResponse
  by_cases hs : r.status ≥ 200 ∧ r.status < 300
  · simp [hs]
  · by_cases hb : r.body = ""
    · simp [hs, hb]
    · cases hp : env.json_parse r.body <;> simp [hs, hb, hp]

/-- A classified response is never one of the two synthetic refresh failures. -/
theorem processResponse_ne_refreshFailed (env : Env) (res : Option HttpResponse)
    (msg : String)
    (hmsg : msg = "Token refresh failed" ∨ msg = "Token refresh failed: No token provider") :
    processResponse env res ≠ refreshFailed msg := by
  intro h
  cases res with
  | none =>
    have hcode := congrArg NetworkResponse.statusCode h
    simp [processResponse, NetworkResponse.default, refreshFailed] at hcode
  | some r =>
    have hcode := congrArg NetworkResponse.statusCode h
    have hbody := congrArg NetworkResponse.body h
    have hmessage := congrArg NetworkResponse.errorMessage h
    rw [processResponse_some_statusCode] at hcode
    rw [processResponse_some_body] at hbody
    simp only [refreshFailed] at hcode hbody hmessage
    rw [processResponse_errorMessage_table env r (by omega) (Or.inl hbody), hcode] at hmessage
    rcases hmsg with hm | hm <;> subst hm <;> revert hmessage <;> decide

/-- C22: without a token provider, or with auto-refresh switched off, a 401 or
403 that is retryable is handled by the delayed retry only.  With
maxRetries >= 0 and a transport that always answers with that status, a
request (of a known method, on a constructed manager, starting with
retryCount = 0) makes exactly maxRetries + 1 client calls with maxRetries
delays in between and no refresh, and then delivers the classified response of
the last client call, which has that status and is not a synthetic
"Token refresh failed" outcome. -/
theorem unauthorized_plain_retry {π : Type} (env : Env) (w : World π)
    (context : RequestContext) (fuel : Nat) (s : Int)
    (hs : s = 401 ∨ s = 403)
    (hI : Initialized w.manager) (hK : KnownMethod context.method)
    (h0 : context.retryCount = 0) (hmax : 0 ≤ w.manager.config_.maxRetries)
    (hmem : s ∈ w.manager.config_.retryOnStatusCodes)
    (hplain : w.manager.tokenProvider_ = none ∨ w.manager.autoRefreshToken_ = false)
    (hT : ∀ n d, ∃ r, env.transport n d = some r ∧ r.status = s)
    (hfuel : w.manager.config_.maxRetries.toNat + 1 ≤ fuel) :
    ∃ (w1 : World π) (mid : List Event) (d : Dispatch) (r : NetworkResponse),
      executeWithRetry env fuel w context = some w1 ∧
      w1.trace = w.trace ++ mid ++ [.exchange d, .callback r] ∧
      callbacks mid = 0 ∧ refreshes mid = 0 ∧
      (exchanges (mid ++ [.exchange d, .callback r]) : Int) =
        w.manager.config_.maxRetries + 1 ∧
      (sleeps mid : Int) = w.manager.config_.maxRetries ∧
      r = processResponse env (env.transport (exchanges (w.trace ++ mid)) d) ∧
      r.success = false ∧ r.statusCode = s ∧
      r ≠ refreshFailed "Token refresh failed" ∧
      r ≠ refreshFailed "Token refresh failed: No token provider" := by
  have hnr : ¬ (w.manager.autoRefreshToken_ = true ∧ w.manager.tokenProvider_.isSome = true ∧
      (s = 401 ∨ s = 403)) := by
    rintro ⟨ha, hp, -⟩
    rcases hplain with h | h
    · rw [h] at hp; cases hp
    · rw [h] at ha; cases ha
  obtain ⟨w1, mid, d, r, hrun, htr, hc, hr, hx, hsl, hlast, hrs, hrc⟩ :=
    executeWithRetry_plain_chain_last env s hT (by omega) fuel w context hI hK hmem hnr
      (by omega) (by rw [h0]; simpa using hfuel)
  refine ⟨w1, mid, d, r, hrun, htr, hc, hr, ?_, ?_, hlast, hrs, hrc, ?_, ?_⟩
  · rw [exchanges_append, hx, h0]
    have h1 : exchanges [Event.exchange d, Event.callback r] = 1 := rfl
    rw [h1]
    simp only [sub_zero]
    omega
  · rw [hsl, h0]
    simp only [sub_zero]
    omega
  · rw [hlast]
    exact processResponse_ne_refreshFailed env _ _ (Or.inl rfl)
  · rw [hlast]
    exact processResponse_ne_refreshFailed env _ _ (Or.inr rfl)

theorem unauthorized_plain_retry_witness :
    ∃ (w1 : World Unit) (mid : List Event) (d : Dispatch) (r : NetworkResponse),
      executeWithRetry (constantEnv 401) 4 ⟨plainManager 3, (), []⟩ getItems = some w1 ∧
      w1.trace = [] ++ mid ++ [.exchange d, .callback r] ∧
      callbacks mid = 0 ∧ refreshes mid = 0 ∧
      (exchanges (mid ++ [.exchange d, .callback r]) : Int) = 3 + 1 ∧
      (sleeps mid : Int) = 3 ∧
      r = processResponse (constantEnv 401)
        ((constantEnv 401).transport (exchanges ([] ++ mid)) d) ∧
      r.success = false ∧ r.statusCode = 401 ∧
      r ≠ refreshFailed "Token refresh failed" ∧
      r ≠ refreshFailed "Token refresh failed: No token provider" :=
  unauthorized_plain_retry (constantEnv 401) ⟨plainManager 3, (), []⟩ getItems 4 401
    (Or.inl rfl) ⟨rfl, rfl⟩ (Or.inl rfl) rfl (by decide) (by decide) (Or.inl rfl)
    (fun _ _ => ⟨_, rfl, rfl⟩) (by decide)

theorem shouldRetry_of_not_mem {π : Type} (m : NetworkManager π) (statusCode retryCount : Int)
    (h : statusCode ∉ m.config_.retryOnStatusCodes) :
    m.shouldRetry statusCode retryCount = false := by
  unfold NetworkManager.shouldRetry
  by_cases hge : retryCount ≥ m.config_.maxRetries
  · simp [hge]
  · simp [hge, h]

/-- C24: when 0 is not among the retryable status codes (as with the default
codes 401, 403, 503), a request whose first client call ends with the null
result makes exactly that one client call and delivers the transport-failure
outcome (statusCode 0, success = false) at once, whatever maxRetries and
retryCount are. -/
theorem transport_failure_not_retried {π : Type} (env : Env) (w : World π)
    (context : RequestContext) (fuel : Nat)
    (hI : Initialized w.manager) (hK : KnownMethod context.method)
    (hzero : (0 : Int) ∉ w.manager.config_.retryOnStatusCodes)
    (hfail : ∀ d, env.transport (exchanges w.trace) d = none)
    (hfuel : 1 ≤ fuel) :
    (∃ d : Dispatch,
      executeWithRetry env fuel w context =
        some { w with trace := w.trace ++ [.exchange d, .callback (processResponse env none)] }) ∧
      (processResponse env none).statusCode = 0 ∧
      (processResponse env none).success = false ∧
      (0 : Int) ∉ RequestConfig.default.retryOnStatusCodes := by
  refine ⟨?_, rfl, rfl, by decide⟩
  obtain ⟨n, rfl⟩ : ∃ n, fuel = n + 1 := ⟨fuel - 1, by omega⟩
  obtain ⟨d, hd, -⟩ := executeRequest_known env w context hI hK
  refine ⟨d, ?_⟩
  have hcode : (processResponse env none).statusCode = 0 := rfl
  rw [executeWithRetry_succ, hd, hfail d]
  simp only [World.emit, hcode]
  rw [if_neg (by rw [shouldRetry_of_not_mem _ _ _ hzero]; simp)]
  simp

theorem transport_failure_not_retried_witness :
    (∃ d : Dispatch,
      executeWithRetry unreachableEnv 1 ⟨plainManager 3, (), []⟩ getItems =
        some { (World.mk (plainManager 3) () []) with
          trace := [] ++ [.exchange d, .callback (processResponse unreachableEnv none)] }) ∧
      (processResponse unreachableEnv none).statusCode = 0 ∧
      (processResponse unreachableEnv none).success = false ∧
      (0 : Int) ∉ RequestConfig.default.retryOnStatusCodes :=
  transport_failure_not_retried unreachableEnv ⟨plainManager 3, (), []⟩ getItems 1
    ⟨rfl, rfl⟩ (Or.inl rfl) (by decide) (fun _ => rfl) (by decide)

/-! ## Token source -/

theorem injectAuthToken_provider {π : Type} (m : NetworkManager π) (P : TokenProvider π)
    (p : π) (headers : Headers) (access refresh : String)
    (hprov : m.tokenProvider_ = some P) :
    injectAuthToken { m with accessToken_ := access, refreshToken_ := refresh } p headers =
      injectAuthToken m p headers := by
  simp only [injectAuthToken, hprov]

theorem clientCall_tokens {π : Type} (env : Env) (m : NetworkManager π) (p : π)
    (tr : List Event) (d : Dispatch) (access refresh : String) :
    (clientCall env ⟨{ m with accessToken_ := access, refreshToken_ := refresh }, p, tr⟩ d).1 =
        (clientCall env ⟨m, p, tr⟩ d).1 ∧
      (clientCall env ⟨{ m with accessToken_ := access, refreshToken_ := refresh }, p, tr⟩
        d).2.trace = (clientCall env ⟨m, p, tr⟩ d).2.trace := by
  unfold clientCall
  simp only
  constructor <;> split_ifs <;> rfl

/-- With a provider set, the tokens stored in the manager play no part in a
request: the response and the trace (and so the client call) are the same. -/
theorem executeRequest_provider {π : Type} (env : Env) (m : NetworkManager π)
    (P : TokenProvider π) (p : π) (tr : List Event) (context : RequestContext)
    (access refresh : String) (hprov : m.tokenProvider_ = some P) :
    (executeRequest env ⟨{ m with accessToken_ := access, refreshToken_ := refresh }, p, tr⟩
        context).1 = (executeRequest env ⟨m, p, tr⟩ context).1 ∧
      (executeRequest env ⟨{ m with accessToken_ := access, refreshToken_ := refresh }, p, tr⟩
        context).2.trace = (executeRequest env ⟨m, p, tr⟩ context).2.trace := by
  have hcall := fun d => clientCall_tokens env m p tr d access refresh
  unfold executeRequest
  simp only [injectAuthToken_provider m P p _ access refresh hprov]
  simp only [doGet, doPost, doPostMultipart, doPut, doDelete, doPatch, mergeHeaders]
  constructor
  · split_ifs <;> first | rfl | exact congrArg (processResponse env) (hcall _).1
  · split_ifs <;> first | rfl | exact (hcall _).2

/-- C23: when a token provider is set, the token `injectAuthToken` works with
is `provider.getAccessToken()` and the manager's stored access token is not
looked at: after `setAccessToken` or `clearTokens` on the manager,
`injectAuthToken` returns the same headers, and a request yields the same
response and the same client call.  When no provider is set, the token is the
manager's stored access token. -/
theorem provider_token_precedence {π : Type} (env : Env) (m : NetworkManager π)
    (P : TokenProvider π) (p : π) (tr : List Event) (context : RequestContext)
    (token : String) (hprov : m.tokenProvider_ = some P) :
    currentToken m p = P.getAccessToken p ∧
      injectAuthToken m p context.headers =
        (if P.getAccessToken p ≠ "" then
          context.headers.filter (fun h => h.1 ≠ "Authorization") ++
            [("Authorization", "Bearer " ++ P.getAccessToken p)]
        else context.headers) ∧
      injectAuthToken (m.setAccessToken token) p context.headers =
        injectAuthToken m p context.headers ∧
      injectAuthToken m.clearTokens p context.headers = injectAuthToken m p context.headers ∧
      (executeRequest env ⟨m.setAccessToken token, p, tr⟩ context).1 =
        (executeRequest env ⟨m, p, tr⟩ context).1 ∧
      (executeRequest env ⟨m.setAccessToken token, p, tr⟩ context).2.trace =
        (executeRequest env ⟨m, p, tr⟩ context).2.trace ∧
      (executeRequest env ⟨m.clearTokens, p, tr⟩ context).1 =
        (executeRequest env ⟨m, p, tr⟩ context).1 ∧
      (executeRequest env ⟨m.clearTokens, p, tr⟩ context).2.trace =
        (executeRequest env ⟨m, p, tr⟩ context).2.trace ∧
      ∀ (m0 : NetworkManager π), m0.tokenProvider_ = none →
        currentToken m0 p = m0.accessToken_ ∧
        injectAuthToken m0 p context.headers =
          (if m0.accessToken_ ≠ "" then
            context.headers.filter (fun h => h.1 ≠ "Authorization") ++
              [("Authorization", "Bearer " ++ m0.accessToken_)]
          else context.headers) := by
  have hcur : currentToken m p = P.getAccessToken p := by
    simp only [currentToken, hprov]
  refine ⟨hcur, ?_, ?_, ?_, ?_, ?_, ?_, ?_, ?_⟩
  · rw [injectAuthToken_eq, hcur]
  · exact injectAuthToken_provider m P p _ token m.refreshToken_ hprov
  · exact injectAuthToken_provider m P p _ "" "" hprov
  · exact (executeRequest_provider env m P p tr context token m.refreshToken_ hprov).1
  · exact (executeRequest_provider env m P p tr context token m.refreshToken_ hprov).2
  · exact (executeRequest_provider env m P p tr context "" "" hprov).1
  · exact (executeRequest_provider env m P p tr context "" "" hprov).2
  · intro m0 hnone
    have hcur0 : currentToken m0 p = m0.accessToken_ := by
      simp only [currentToken, hnone]
    exact ⟨hcur0, by rw [injectAuthToken_eq, hcur0]⟩

theorem provider_token_precedence_witness :
    currentToken (freshManager 3) () = alwaysFresh.getAccessToken () ∧
      injectAuthToken (freshManager 3) () getItemsBasic.headers =
        (if alwaysFresh.getAccessToken () ≠ "" then
          getItemsBasic.headers.filter (fun h => h.1 ≠ "Authorization") ++
            [("Authorization", "Bearer " ++ alwaysFresh.getAccessToken ())]
        else getItemsBasic.headers) ∧
      injectAuthToken ((freshManager 3).setAccessToken "other") () getItemsBasic.headers =
        injectAuthToken (freshManager 3) () getItemsBasic.headers ∧
      injectAuthToken (freshManager 3).clearTokens () getItemsBasic.headers =
        injectAuthToken (freshManager 3) () getItemsBasic.headers ∧
      (executeRequest (constantEnv 200) ⟨(freshManager 3).setAccessToken "other", (), []⟩
        getItemsBasic).1 =
        (executeRequest (constantEnv 200) ⟨freshManager 3, (), []⟩ getItemsBasic).1 ∧
      (executeRequest (constantEnv 200) ⟨(freshManager 3).setAccessToken "other", (), []⟩
        getItemsBasic).2.trace =
        (executeRequest (constantEnv 200) ⟨freshManager 3, (), []⟩ getItemsBasic).2.trace ∧
      (executeRequest (constantEnv 200) ⟨(freshManager 3).clearTokens, (), []⟩
        getItemsBasic).1 =
        (executeRequest (constantEnv 200) ⟨freshManager 3, (), []⟩ getItemsBasic).1 ∧
      (executeRequest (constantEnv 200) ⟨(freshManager 3).clearTokens, (), []⟩
        getItemsBasic).2.trace =
        (executeRequest (constantEnv 200) ⟨freshManager 3, (), []⟩ getItemsBasic).2.trace ∧
      ∀ (m0 : NetworkManager Unit), m0.tokenProvider_ = none →
        currentToken m0 () = m0.accessToken_ ∧
        injectAuthToken m0 () getItemsBasic.headers =
          (if m0.accessToken_ ≠ "" then
            getItemsBasic.headers.filter (fun h => h.1 ≠ "Authorization") ++
              [("Authorization", "Bearer " ++ m0.accessToken_)]
          else getItemsBasic.headers) :=
  provider_token_precedence (constantEnv 200) (freshManager 3) alwaysFresh () []
    getItemsBasic "other" rfl

/-! ## Refreshes and the retry budget -/

/-- C4, as the code has it.  For every transport, provider and request: a
failure whose status is 401 or 403 enters the refresh cycle (instead of the
delayed retry) when auto-refresh is on, a provider is set and `shouldRetry`
holds; once retryCount >= maxRetries the outcome is delivered without a
refresh; and a chain makes at most maxRetries - retryCount refreshes.  With a
transport that always answers 401 (or always 403), that status retryable and
a provider whose refresh always reports a non-empty token, a request starting
with retryCount <= maxRetries refreshes exactly maxRetries - retryCount times
(maxRetries times from retryCount = 0), makes one client call more than that,
and then delivers the failure. -/
theorem refresh_within_retry_budget {π : Type} (env : Env) (P : TokenProvider π)
    (w : World π) (context : RequestContext) (fuel : Nat) (s : Int)
    (hs : s = 401 ∨ s = 403)
    (hI : Initialized w.manager) (hK : KnownMethod context.method)
    (hauto : w.manager.autoRefreshToken_ = true) (hprov : w.manager.tokenProvider_ = some P)
    (hP : ∀ p, (P.refreshAccessToken p).1.1 = true ∧ (P.refreshAccessToken p).1.2 ≠ "")
    (hmem : s ∈ w.manager.config_.retryOnStatusCodes)
    (hT : ∀ n d, ∃ r, env.transport n d = some r ∧ r.status = s)
    (hle : context.retryCount ≤ w.manager.config_.maxRetries)
    (hfuel : (w.manager.config_.maxRetries - context.retryCount).toNat + 1 ≤ fuel) :
    (∃ (w1 : World π) (mid : List Event) (r : NetworkResponse),
      executeWithRetry env fuel w context = some w1 ∧
      w1.trace = w.trace ++ mid ++ [.callback r] ∧
      (refreshes mid : Int) = w.manager.config_.maxRetries - context.retryCount ∧
      (exchanges mid : Int) = w.manager.config_.maxRetries - context.retryCount + 1 ∧
      r.success = false ∧ r.statusCode = s) ∧
    (∀ (env0 : Env) (w0 : World π) (c0 : RequestContext) (n : Nat),
      ((executeRequest env0 w0 c0).1.success = false →
        (executeRequest env0 w0 c0).2.manager.shouldRetry
          (executeRequest env0 w0 c0).1.statusCode c0.retryCount = true →
        (executeRequest env0 w0 c0).2.manager.autoRefreshToken_ = true →
        (executeRequest env0 w0 c0).2.manager.tokenProvider_.isSome = true →
        ((executeRequest env0 w0 c0).1.statusCode = 401 ∨
          (executeRequest env0 w0 c0).1.statusCode = 403) →
        executeWithRetry env0 (n + 1) w0 c0 =
          handleTokenRefresh (executeWithRetry env0 n) (executeRequest env0 w0 c0).2 c0) ∧
      (c0.retryCount ≥ w0.manager.config_.maxRetries →
        executeWithRetry env0 (n + 1) w0 c0 =
          some ((executeRequest env0 w0 c0).2.emit (.callback (executeRequest env0 w0 c0).1))) ∧
      ((w0.manager.config_.maxRetries - c0.retryCount).toNat + 1 ≤ n →
        ∃ (w1 : World π) (mid : List Event) (r : NetworkResponse),
          executeWithRetry env0 n w0 c0 = some w1 ∧
          w1.trace = w0.trace ++ mid ++ [.callback r] ∧
          refreshes mid ≤ (w0.manager.config_.maxRetries - c0.retryCount).toNat)) := by
  constructor
  · obtain ⟨w1, mid, r, hrun, htr, -, hr, hx, hrs, hrc⟩ :=
      executeWithRetry_refresh_chain env s P hT hs hP fuel w context hI hK hmem
        hauto hprov hle hfuel
    refine ⟨w1, mid, r, hrun, htr, ?_, ?_, hrs, hrc⟩
    · rw [hr]; omega
    · rw [hx]; omega
  · intro env0 w0 c0 n
    refine ⟨?_, ?_, ?_⟩
    · intro h1 h2 h3 h4 h5
      rw [executeWithRetry_succ, if_pos ⟨h1, h2⟩, if_pos ⟨h3, h4, h5⟩]
    · intro hge
      obtain ⟨ex, hex, -⟩ := executeRequest_step env0 w0 c0
      have hm : (executeRequest env0 w0 c0).2.manager = w0.manager := by rw [hex]
      have hno : ¬ ((executeRequest env0 w0 c0).1.success = false ∧
          (executeRequest env0 w0 c0).2.manager.shouldRetry
            (executeRequest env0 w0 c0).1.statusCode c0.retryCount = true) := by
        rintro ⟨-, h⟩
        rw [hm, shouldRetry_of_ge _ _ _ hge] at h
        cases h
      rw [executeWithRetry_succ, if_neg hno]
    · intro hn
      obtain ⟨w1, mid, r, hrun, htr, -, hr, -⟩ := executeWithRetry_summary env0 n w0 c0 hn
      exact ⟨w1, mid, r, hrun, htr, hr⟩

theorem refresh_within_retry_budget_witness :
    ∃ (w1 : World Unit) (mid : List Event) (r : NetworkResponse),
      executeWithRetry (constantEnv 403) 4 ⟨freshManager 3, (), []⟩ getItems = some w1 ∧
      w1.trace = [] ++ mid ++ [.callback r] ∧
      (refreshes mid : Int) = 3 - 0 ∧
      (exchanges mid : Int) = 3 - 0 + 1 ∧
      r.success = false ∧ r.statusCode = 403 :=
  (refresh_within_retry_budget (constantEnv 403) alwaysFresh
    ⟨freshManager 3, (), []⟩ getItems 4 403 (Or.inr rfl) ⟨rfl, rfl⟩ (Or.inl rfl) rfl rfl
    (fun _ => ⟨rfl, (by decide : ("fresh" : String) ≠ "")⟩) (by decide)
    (fun _ _ => ⟨_, rfl, rfl⟩) (by decide) (by decide)).1

/-! ## The refresh cycle -/

/-- C5, as the code has it: with auto-refresh on, a token provider set,
maxRetries >= 1 and 401 retryable, if the first client call is answered with
401, the provider's refresh then reports success with the non-empty token
`newToken`, and the second client call is answered with 200, the chain is:
client call, refresh, client call, callback, and the delivered outcome has
success = true.  The reported token is stored in the manager, but the second
client call is sent with the token the provider's `getAccessToken()` returns
after the refresh: if that token is not empty the headers contain
Authorization: Bearer followed by it, and so they contain
Authorization: Bearer newToken when the provider returns the token it
reported (the interceptor, if one is set, is assumed to keep the entries it
is given). -/
theorem refresh_cycle_uses_provider_token {π : Type} (env : Env) (P : TokenProvider π)
    (w : World π) (context : RequestContext) (fuel : Nat) (newToken : String)
    (hI : Initialized w.manager) (hK : KnownMethod context.method)
    (hauto : w.manager.autoRefreshToken_ = true) (hprov : w.manager.tokenProvider_ = some P)
    (hkeep : ∀ f, w.manager.requestInterceptor_ = some f → ∀ hs e, e ∈ hs → e ∈ f hs)
    (h0 : context.retryCount = 0) (hmax : 1 ≤ w.manager.config_.maxRetries)
    (hmem : (401 : Int) ∈ w.manager.config_.retryOnStatusCodes)
    (hfirst : ∀ d, ∃ r, env.transport (exchanges w.trace) d = some r ∧ r.status = 401)
    (hrefresh : (P.refreshAccessToken w.provider).1 = (true, newToken))
    (hne : newToken ≠ "")
    (hsecond : ∀ d, ∃ r, env.transport (exchanges w.trace + 1) d = some r ∧ r.status = 200)
    (hfuel : 2 ≤ fuel) :
    ∃ (w1 : World π) (d1 d2 : Dispatch) (r : NetworkResponse),
      executeWithRetry env fuel w context = some w1 ∧
      w1.trace = w.trace ++
        [.exchange d1, .refresh true newToken, .exchange d2, .callback r] ∧
      r.success = true ∧ r.statusCode = 200 ∧
      w1.manager.accessToken_ = newToken ∧
      (P.getAccessToken (P.refreshAccessToken w.provider).2 ≠ "" →
        ("Authorization", "Bearer " ++ P.getAccessToken (P.refreshAccessToken w.provider).2) ∈
          d2.headers) ∧
      (P.getAccessToken (P.refreshAccessToken w.provider).2 = newToken →
        ("Authorization", "Bearer " ++ newToken) ∈ d2.headers) := by
  obtain ⟨n, rfl⟩ : ∃ n, fuel = n + 1 + 1 := ⟨fuel - 2, by omega⟩
  -- first attempt
  obtain ⟨d1, hd1, -⟩ := executeRequest_known env w context hI hK
  obtain ⟨r1, hr1, hst1⟩ := hfirst d1
  have hsucc1 : (processResponse env (some r1)).success = false := by
    rw [processResponse_some_success, hst1]; decide
  have hcode1 : (processResponse env (some r1)).statusCode = 401 := by
    rw [processResponse_some_statusCode, hst1]
  have hcond : w.manager.autoRefreshToken_ = true ∧
      w.manager.tokenProvider_.isSome = true ∧ (True ∨ (401 : Int) = 403) :=
    ⟨hauto, by rw [hprov]; rfl, Or.inl trivial⟩
  rw [executeWithRetry_succ, hd1, hr1]
  simp only [World.emit, hsucc1, hcode1, true_and]
  rw [if_pos (shouldRetry_of_lt _ _ _ (by omega) hmem), if_pos hcond]
  -- refresh
  have hr1' : (P.refreshAccessToken w.provider).1.1 = true := by rw [hrefresh]
  have hr2' : (P.refreshAccessToken w.provider).1.2 = newToken := by rw [hrefresh]
  unfold handleTokenRefresh
  simp only [hprov, hr1', hr2']
  rw [if_pos ⟨trivial, hne⟩]
  -- second attempt
  generalize hw2 : (World.mk (w.manager.setAccessToken newToken)
      (P.refreshAccessToken w.provider).2
      (w.trace ++ [Event.exchange d1] ++ [Event.refresh true newToken])) = w2
  have hw2m : w2.manager = w.manager.setAccessToken newToken := by rw [← hw2]
  have hw2p : w2.provider = (P.refreshAccessToken w.provider).2 := by rw [← hw2]
  have hw2t : w2.trace = w.trace ++ [Event.exchange d1] ++ [Event.refresh true newToken] := by
    rw [← hw2]
  have hI2 : Initialized w2.manager := by rw [hw2m]; exact hI
  obtain ⟨d2, hd2, hh2⟩ :=
    executeRequest_known env w2 { context with retryCount := context.retryCount + 1 } hI2 hK
  have hidx : exchanges w2.trace = exchanges w.trace + 1 := by
    rw [hw2t, exchanges_append, exchanges_append]; rfl
  obtain ⟨r2, hr2, hst2⟩ := hsecond d2
  have hsucc2 : (processResponse env (some r2)).success = true := by
    rw [processResponse_some_success, hst2]; decide
  have hcode2 : (processResponse env (some r2)).statusCode = 200 := by
    rw [processResponse_some_statusCode, hst2]
  have hbearer : P.getAccessToken (P.refreshAccessToken w.provider).2 ≠ "" →
      ("Authorization", "Bearer " ++ P.getAccessToken (P.refreshAccessToken w.provider).2) ∈
        d2.headers := by
    intro htok
    rw [hh2, mergeHeaders_eq]
    apply List.mem_append_right
    have hcur : currentToken w2.manager w2.provider =
        P.getAccessToken (P.refreshAccessToken w.provider).2 := by
      simp only [currentToken, hw2m, NetworkManager.setAccessToken, hprov, hw2p]
    have hinj : ("Authorization",
        "Bearer " ++ P.getAccessToken (P.refreshAccessToken w.provider).2) ∈
        injectAuthToken w2.manager w2.provider context.headers := by
      rw [injectAuthToken_eq, hcur, if_pos htok]
      simp
    have hint2 : w2.manager.requestInterceptor_ = w.manager.requestInterceptor_ := by
      rw [hw2m]; rfl
    rw [hint2]
    cases hf : w.manager.requestInterceptor_ with
    | none => exact hinj
    | some f => exact hkeep f hf _ _ hinj
  rw [executeWithRetry_succ, hd2, hidx, hr2]
  simp only [hsucc2, Bool.true_eq_false, false_and, if_false]
  refine ⟨_, d1, d2, _, rfl, ?_, hsucc2, hcode2, ?_, hbearer, ?_⟩
  · simp [World.emit, hw2t]
  · simp only [World.emit, hw2m, NetworkManager.setAccessToken]
  · intro heq
    have h := hbearer (by rw [heq]; exact hne)
    rw [heq] at h
    exact h

theorem refresh_cycle_uses_provider_token_witness :
    ∃ (w1 : World Unit) (d1 d2 : Dispatch) (r : NetworkResponse),
      executeWithRetry expiredOnceEnv 2 ⟨freshManager 3, (), []⟩ getItems = some w1 ∧
      w1.trace = [] ++ [.exchange d1, .refresh true "fresh", .exchange d2, .callback r] ∧
      r.success = true ∧ r.statusCode = 200 ∧
      w1.manager.accessToken_ = "fresh" ∧
      (alwaysFresh.getAccessToken (alwaysFresh.refreshAccessToken ()).2 ≠ "" →
        ("Authorization",
          "Bearer " ++ alwaysFresh.getAccessToken (alwaysFresh.refreshAccessToken ()).2) ∈
          d2.headers) ∧
      (alwaysFresh.getAccessToken (alwaysFresh.refreshAccessToken ()).2 = "fresh" →
        ("Authorization", "Bearer " ++ "fresh") ∈ d2.headers) :=
  refresh_cycle_uses_provider_token expiredOnceEnv alwaysFresh ⟨freshManager 3, (), []⟩
    getItems 2 "fresh" ⟨rfl, rfl⟩ (Or.inl rfl) rfl rfl (fun _ hf => nomatch hf) rfl
    (by decide) (by decide) (fun _ => ⟨_, rfl, rfl⟩) rfl (by decide)
    (fun _ => ⟨_, rfl, rfl⟩) (by decide)

/-- C5, as the spec states it, fails: with a provider whose refresh reports
the new token "fresh" but whose `getAccessToken()` still returns "stale", the
chain is client call (401), refresh, client call (200), callback with
success = true, yet the second client call carries
Authorization: Bearer stale and not Authorization: Bearer fresh. -/
theorem refresh_reported_token_not_sent_example :
    (executeWithRetry expiredOnceEnv 2 ⟨staleManager, (), []⟩ getItems).map
        (fun w => (exchanges w.trace, w.trace.count (.refresh true "fresh"),
          (delivered w).map (fun r => r.success))) = some (2, 1, some true) ∧
      (executeWithRetry expiredOnceEnv 2 ⟨staleManager, (), []⟩ getItems).map
        (fun w => (dispatchedHeaders w.trace).map
          (fun hs => (hs.count ("Authorization", "Bearer fresh"),
            hs.count ("Authorization", "Bearer stale")))) = some [(0, 1), (0, 1)] := by
  constructor <;> decide

/-! ## Merged headers -/

theorem mergeHeaders_count {π : Type} (m : NetworkManager π) (requestHeaders : Headers)
    (e : String × String) :
    (mergeHeaders m requestHeaders).count e =
      m.config_.defaultHeaders.count e + requestHeaders.count e := by
  rw [mergeHeaders_eq, List.count_append]

/-- C14, as the code has it: the merged header set holds every default entry
and every per-request entry, each as often as the default headers and the
per-request headers hold it together; a per-request entry is added next to a
default entry with the same key, not instead of it.  Executing a request
leaves the manager, and with it the default headers, as it was. -/
theorem mergeHeaders_keeps_both {π : Type} (env : Env) (w : World π)
    (context : RequestContext) (requestHeaders : Headers) :
    (∀ e, (mergeHeaders w.manager requestHeaders).count e =
        w.manager.config_.defaultHeaders.count e + requestHeaders.count e) ∧
      (∀ e, e ∈ mergeHeaders w.manager requestHeaders ↔
        e ∈ w.manager.config_.defaultHeaders ∨ e ∈ requestHeaders) ∧
      (executeRequest env w context).2.manager = w.manager := by
  refine ⟨mergeHeaders_count _ _, ?_, ?_⟩
  · intro e
    rw [mergeHeaders_eq, List.mem_append]
  · obtain ⟨ex, hex, -⟩ := executeRequest_step env w context
    rw [hex]

/-- C14, as the spec states it, fails: with the default header
Content-Type: application/json and the per-call header Content-Type: text/plain
the merged set still holds the default value, and `doPost` makes one client
call whose headers hold both values. -/
theorem mergeHeaders_no_override_example :
    ("Content-Type", "application/json") ∈
        mergeHeaders jsonManager [("Content-Type", "text/plain")] ∧
      (dispatchedHeaders
          (doPost (constantEnv 200) ⟨jsonManager, (), []⟩ "/notes" "hello" "text/plain"
            [("Content-Type", "text/plain")]).2.trace).map
        (fun hs => (hs.count ("Content-Type", "application/json"),
          hs.count ("Content-Type", "text/plain"))) = [(1, 1)] := by
  constructor <;> decide

/-! ## The Authorization header in any spelling -/

theorem authorizationHeaders_append (a b : Headers) :
    authorizationHeaders (a ++ b) = authorizationHeaders a ++ authorizationHeaders b := by
  simp [authorizationHeaders]

theorem authorizationHeaders_injected {π : Type} (m : NetworkManager π) (p : π)
    (headers : Headers) (htoken : currentToken m p ≠ "") :
    authorizationHeaders (injectAuthToken m p headers) =
      (authorizationHeaders headers).filter (fun h => h.1 ≠ "Authorization") ++
        [("Authorization", "Bearer " ++ currentToken m p)] := by
  rw [injectAuthToken_eq, if_pos htoken, authorizationHeaders_append]
  have hkey : isAuthorizationKey "Authorization" = true := by decide
  have h1 : authorizationHeaders [("Authorization", "Bearer " ++ currentToken m p)] =
      [("Authorization", "Bearer " ++ currentToken m p)] := by
    simp [authorizationHeaders, hkey]
  have h2 : authorizationHeaders (headers.filter (fun h => h.1 ≠ "Authorization")) =
      (authorizationHeaders headers).filter (fun h => h.1 ≠ "Authorization") := by
    simp only [authorizationHeaders, List.filter_filter]
    congr 1
    funext h
    exact Bool.and_comm _ _
  rw [h1, h2]

/-- C15, as the code has it: when the current access token is not empty,
`injectAuthToken` removes the per-request entries whose key is spelled exactly
Authorization and adds the entry Authorization: "Bearer " followed by the
token.  On a constructed manager without interceptor the client call holds
that entry, and its Authorization headers (in any spelling) are, up to order:
those of the default headers, the per-request ones spelled otherwise than
Authorization, and that entry.  So the call holds exactly one Authorization
header, the bearer entry, when the default headers hold none and the
per-request headers hold none in another spelling. -/
theorem authorization_when_token {π : Type} (env : Env) (w : World π)
    (context : RequestContext)
    (hI : Initialized w.manager) (hK : KnownMethod context.method)
    (hnone : w.manager.requestInterceptor_ = none)
    (htoken : currentToken w.manager w.provider ≠ "") :
    authorizationEntries (injectAuthToken w.manager w.provider context.headers) =
        [("Authorization", "Bearer " ++ currentToken w.manager w.provider)] ∧
      ∃ d : Dispatch,
        executeRequest env w context =
          (processResponse env (env.transport (exchanges w.trace) d), w.emit (.exchange d)) ∧
        ("Authorization", "Bearer " ++ currentToken w.manager w.provider) ∈ d.headers ∧
        List.Perm (authorizationHeaders d.headers)
          (authorizationHeaders w.manager.config_.defaultHeaders ++
            (authorizationHeaders context.headers).filter (fun h => h.1 ≠ "Authorization") ++
            [("Authorization", "Bearer " ++ currentToken w.manager w.provider)]) ∧
        (authorizationHeaders w.manager.config_.defaultHeaders = [] →
          (∀ e ∈ context.headers, isAuthorizationKey e.1 = true → e.1 = "Authorization") →
          authorizationHeaders d.headers =
            [("Authorization", "Bearer " ++ currentToken w.manager w.provider)]) := by
  refine ⟨authorizationEntries_injected _ _ _ htoken, ?_⟩
  obtain ⟨d, hd, hh⟩ := executeRequest_known env w context hI hK
  have hauth : authorizationHeaders d.headers =
      authorizationHeaders w.manager.config_.defaultHeaders ++
        (authorizationHeaders context.headers).filter (fun h => h.1 ≠ "Authorization") ++
        [("Authorization", "Bearer " ++ currentToken w.manager w.provider)] := by
    rw [hh, hnone, mergeHeaders_eq, authorizationHeaders_append,
      authorizationHeaders_injected _ _ _ htoken, List.append_assoc]
  refine ⟨d, hd, ?_, ?_, ?_⟩
  · rw [hh, hnone, mergeHeaders_eq, injectAuthToken_eq, if_pos htoken]
    simp
  · rw [hauth]
  · intro hdef hreq
    have hfil : (authorizationHeaders context.headers).filter
        (fun h => h.1 ≠ "Authorization") = [] := by
      rw [List.filter_eq_nil_iff]
      intro e he
      have hmem := List.mem_filter.mp he
      have hexact := hreq e hmem.1 hmem.2
      simp [hexact]
    rw [hauth, hdef, hfil]
    rfl

theorem authorization_when_token_witness :
    authorizationEntries (injectAuthToken tokenManager () getItemsBasic.headers) =
        [("Authorization", "Bearer " ++ currentToken tokenManager ())] ∧
      ∃ d : Dispatch,
        executeRequest (constantEnv 200) ⟨tokenManager, (), []⟩ getItemsBasic =
          (processResponse (constantEnv 200) ((constantEnv 200).transport (exchanges []) d),
            (World.mk tokenManager () []).emit (.exchange d)) ∧
        ("Authorization", "Bearer " ++ currentToken tokenManager ()) ∈ d.headers ∧
        List.Perm (authorizationHeaders d.headers)
          (authorizationHeaders tokenManager.config_.defaultHeaders ++
            (authorizationHeaders getItemsBasic.headers).filter
              (fun h => h.1 ≠ "Authorization") ++
            [("Authorization", "Bearer " ++ currentToken tokenManager ())]) ∧
        (authorizationHeaders tokenManager.config_.defaultHeaders = [] →
          (∀ e ∈ getItemsBasic.headers, isAuthorizationKey e.1 = true →
            e.1 = "Authorization") →
          authorizationHeaders d.headers =
            [("Authorization", "Bearer " ++ currentToken tokenManager ())]) :=
  authorization_when_token (constantEnv 200) ⟨tokenManager, (), []⟩ getItemsBasic
    ⟨rfl, rfl⟩ (Or.inl rfl) rfl (by decide)

/-- C15, as the spec states it, fails: with the access token "tok", a default
header Authorization: Basic abc is sent next to the bearer entry, and so is a
per-request header authorization: Basic abc, which the erase loop does not
match; in both cases the client call holds two Authorization headers. -/
theorem authorization_not_unique_example :
    (dispatchedHeaders
        (executeRequest (constantEnv 200) ⟨basicAuthManager, (), []⟩ getItems).2.trace).map
      (fun hs => ((authorizationHeaders hs).length, hs.count ("Authorization", "Basic abc"),
        hs.count ("Authorization", "Bearer tok"))) = [(2, 1, 1)] ∧
    (dispatchedHeaders
        (executeRequest (constantEnv 200) ⟨tokenManager, (), []⟩ getItemsLowercase).2.trace).map
      (fun hs => ((authorizationHeaders hs).length, hs.count ("authorization", "Basic abc"),
        hs.count ("Authorization", "Bearer tok"))) = [(2, 1, 1)] := by
  constructor <;> decide

/-! ## Multipart requests of the entry points -/

/-- C21: for every context an entry point builds, on a constructed manager:
if multipart parts are present, the method is POST and `executeRequest` hands
the request to the client with the multipart parts, not with a raw body; if
no multipart parts are present and the method carries a body (POST, PUT,
PATCH), it hands it over with its raw body and content type. -/
theorem multipart_chosen_automatically {π : Type} (env : Env) (w : World π)
    (context : RequestContext) (hI : Initialized w.manager)
    (hE : EntryPointContext env context) :
    (context.multipartItems ≠ [] →
      context.method = "POST" ∧
      ∃ d : Dispatch,
        executeRequest env w context =
          (processResponse env (env.transport (exchanges w.trace) d), w.emit (.exchange d)) ∧
        d.method = context.method ∧ d.path = context.path ∧
        d.payload = .multipart context.multipartItems) ∧
    (context.multipartItems = [] →
      (context.method = "POST" ∨ context.method = "PUT" ∨ context.method = "PATCH") →
      ∃ d : Dispatch,
        executeRequest env w context =
          (processResponse env (env.transport (exchanges w.trace) d), w.emit (.exchange d)) ∧
        d.method = context.method ∧ d.path = context.path ∧
        d.payload = .raw context.body context.contentType) := by
  obtain ⟨hmulti, hraw, hother⟩ := executeRequest_payload env w context hI
  constructor
  · intro hitems
    obtain ⟨c, hctx, hc⟩ := hE
    have hi : context.multipartItems = c.multipartItems := by
      have h := congrArg RequestContext.multipartItems hctx
      exact h
    have hm : context.method = c.method := by
      have h := congrArg RequestContext.method hctx
      exact h
    have hpost : context.method = "POST" := by
      rcases hc with ⟨_, _, _, h⟩ | ⟨_, _, _, h⟩ | ⟨_, _, _, h⟩ | ⟨_, _, _, _, h⟩ |
        ⟨_, _, _, _, h⟩ | ⟨_, _, h⟩ | ⟨_, _, _, h⟩
      · exact absurd (by rw [hi, h]; rfl) hitems
      · exact absurd (by rw [hi, h]; rfl) hitems
      · rw [hm, h]; rfl
      · exact absurd (by rw [hi, h]; rfl) hitems
      · exact absurd (by rw [hi, h]; rfl) hitems
      · exact absurd (by rw [hi, h]; rfl) hitems
      · exact absurd (by rw [hi, h]; rfl) hitems
    obtain ⟨d, hd, hdm, hdp, hdl⟩ := hmulti hpost hitems
    exact ⟨hpost, d, hd, by rw [hdm, hpost], hdp, hdl⟩
  · intro hitems hmethod
    rcases hmethod with h | h | h
    · obtain ⟨d, hd, hdm, hdp, hdl⟩ := hraw h hitems
      exact ⟨d, hd, by rw [hdm, h], hdp, hdl⟩
    · exact hother (Or.inl h)
    · exact hother (Or.inr h)

theorem multipart_chosen_automatically_witness :
    uploadAvatar.method = "POST" ∧
      ∃ d : Dispatch,
        executeRequest (constantEnv 200) ⟨plainManager 3, (), []⟩ uploadAvatar =
          (processResponse (constantEnv 200) ((constantEnv 200).transport (exchanges []) d),
            (World.mk (plainManager 3) () []).emit (.exchange d)) ∧
        d.method = uploadAvatar.method ∧ d.path = uploadAvatar.path ∧
        d.payload = .multipart uploadAvatar.multipartItems :=
  (multipart_chosen_automatically (constantEnv 200) ⟨plainManager 3, (), []⟩ uploadAvatar
    ⟨rfl, rfl⟩ ⟨uploadAvatar, rfl, Or.inr (Or.inr (Or.inl ⟨_, _, _, rfl⟩))⟩).1 (by decide)

end PureMVC
